import Mathlib

/-!
# j-quants-api-go: the `api` package

A shallow embedding of `api/api.go`: the two-step token exchange run by `New`
and the trading-calendar query `TradingCalendar`.

* A Go `string` is a Lean `String`; a Go `error` is `Option String`, `none` for
  `nil` and `some msg` for an error whose `Error()` text is `msg`.
* A Go `(value, error)` result is a pair; a nilable value is an `Option`.
* The HTTP transport is an oracle with its own state; every request handed to
  it is recorded, in order, in `Sys.sent`.
* `encoding/json` and the texts of library errors are parameters (`Lib`);
  `net/url`, `strconv` and `time` are modelled for the calls the package makes:
  `url.Parse` for URLs without fragment, `time.Parse` and `Format` for the
  layout `2006-01-02`, `strconv.Atoi` for a 64-bit `int`.
* `defer resp.Body.Close()` changes no result and is left out; the line
  printed by `TradingCalendar` is recorded in `Sys.stdout`.
-/

namespace JQuants

/-! ## Go values -/

/-- Go `error`: `none` is `nil`, `some msg` an error whose `Error()` is `msg`. -/
abbrev GoError := Option String

/-- The substring relation on Go strings (`strings.Contains s sub`). -/
def Contains (s sub : String) : Prop := sub.data <:+: s.data

instance (s sub : String) : Decidable (Contains s sub) := by
  unfold Contains; infer_instance

/-! ## strconv -/

/-- Size in bits of Go `int` (`strconv.IntSize`) on 64-bit platforms. -/
def intSize : Nat := 64

/-- Go `strconv.Itoa`, also the `%d` verb of `fmt` on an `int`. -/
def Itoa (i : Int) : String :=
  match i with
  | Int.ofNat n => Nat.repr n
  | Int.negSucc n => "-" ++ Nat.repr (n + 1)

/-- The value of an ASCII decimal digit, `none` for any other character. -/
def digitVal (c : Char) : Option Nat :=
  if 48 ≤ c.toNat ∧ c.toNat ≤ 57 then some (c.toNat - 48) else none

/-- Reads a run of decimal digits onto the accumulator `acc`; `none` when a
character is not a digit. -/
def readDigits (acc : Nat) : List Char → Option Nat
  | [] => some acc
  | c :: cs =>
    match digitVal c with
    | none => none
    | some d => readDigits (acc * 10 + d) cs

/-- The two failures of `strconv.Atoi`. -/
inductive NumErr where
  | ErrSyntax
  | ErrRange
  deriving DecidableEq, Repr

/-- Go `strconv.ParseUint(s, 10, intSize)` on the characters after the sign,
`n` being the value read so far: a character that is not a decimal digit is a
syntax error, and the scan stops with a range error at the first digit with
which the value no longer fits an unsigned integer of `intSize` bits. -/
def scanUint (n : Nat) : List Char → Except NumErr Nat
  | [] => .ok n
  | c :: cs =>
    match digitVal c with
    | none => .error .ErrSyntax
    | some d =>
      if n ≥ (2 ^ 64 - 1) / 10 + 1 then .error .ErrRange
      else if n * 10 + d > 2 ^ intSize - 1 then .error .ErrRange
      else scanUint (n * 10 + d) cs

/-- Go `strconv.ParseInt(s, 10, 0)` after the sign: at least one character,
the digits scanned by `scanUint`, then the signed value within the range of
`int`. -/
def atoiDigits (neg : Bool) (ds : List Char) : Except NumErr Int :=
  if ds.isEmpty then .error .ErrSyntax
  else
    match scanUint 0 ds with
    | .error .ErrSyntax => .error .ErrSyntax
    | .error .ErrRange => .error .ErrRange
    | .ok n =>
      if neg then
        if n ≤ 2 ^ (intSize - 1) then .ok (-(n : Int)) else .error .ErrRange
      else
        if n < 2 ^ (intSize - 1) then .ok (n : Int) else .error .ErrRange

/-- Go `strconv.Atoi` without the error text: an optional sign, then one or
more ASCII digits, the value within the range of `int`. The failure is the one
Go reports: `ErrRange` when the digits overflow before any character that is
not a digit is met, `ErrSyntax` otherwise. -/
def atoiCore (s : String) : Except NumErr Int :=
  match s.data with
  | '-' :: rest => atoiDigits true rest
  | '+' :: rest => atoiDigits false rest
  | all => atoiDigits false all

/-! ## time -/

/-- A `time.Time` as seen through the layout `2006-01-02`: its calendar date.
A parsed value is that date at midnight UTC. -/
structure Time where
  Year : Int
  Month : Nat
  Day : Nat
  deriving DecidableEq, Repr

/-- Go `time.appendInt`: a minus sign for a negative `x`, then the decimal
digits of its magnitude left-padded with zeros to `width`. -/
def appendInt (x : Int) (width : Nat) : String :=
  let ds := (Nat.repr x.natAbs).data
  String.mk ((if x < 0 then ['-'] else []) ++ List.replicate (width - ds.length) '0' ++ ds)

/-- Go `t.Format("2006-01-02")`. -/
def Time.Format (t : Time) : String :=
  appendInt t.Year 4 ++ "-" ++ appendInt (t.Month : Int) 2 ++ "-" ++ appendInt (t.Day : Int) 2

/-- Go `time.isLeap`. -/
def isLeap (year : Nat) : Bool :=
  year % 4 == 0 && (year % 100 != 0 || year % 400 == 0)

/-- Go `time.daysIn`. -/
def daysIn (month year : Nat) : Nat :=
  if month == 2 then (if isLeap year then 29 else 28)
  else if month == 4 || month == 6 || month == 9 || month == 11 then 30
  else 31

/-- Go `time.Parse("2006-01-02", value)` without the error text: four digits,
a hyphen, two digits, a hyphen, two digits and nothing else; the month within
1..12 and the day within the month. -/
def parseDate (value : String) : Option Time :=
  match value.data with
  | [y1, y2, y3, y4, s1, m1, m2, s2, d1, d2] =>
    match readDigits 0 [y1, y2, y3, y4], readDigits 0 [m1, m2], readDigits 0 [d1, d2] with
    | some year, some month, some day =>
      if s1 ≠ '-' ∨ s2 ≠ '-' then none
      else if month ≤ 0 ∨ 12 < month then none
      else if day < 1 ∨ day > daysIn month year then none
      else some { Year := (year : Int), Month := month, Day := day }
    | _, _, _ => none
  | _ => none

/-! ## net/url -/

/-- The UTF-8 bytes of a character. -/
def utf8Bytes (c : Char) : List Nat :=
  let n := c.toNat
  if n < 0x80 then [n]
  else if n < 0x800 then [0xC0 + n / 64, 0x80 + n % 64]
  else if n < 0x10000 then [0xE0 + n / 4096, 0x80 + n / 64 % 64, 0x80 + n % 64]
  else [0xF0 + n / 262144, 0x80 + n / 4096 % 64, 0x80 + n / 64 % 64, 0x80 + n % 64]

/-- Go `url.shouldEscape(c, encodeQueryComponent)`: everything is escaped but
ASCII letters, digits and `-`, `_`, `.`, `~`. -/
def shouldEscape (b : Nat) : Bool :=
  !((97 ≤ b && b ≤ 122) || (65 ≤ b && b ≤ 90) || (48 ≤ b && b ≤ 57)
    || b == 45 || b == 95 || b == 46 || b == 126)

/-- One digit of `upperhex`. -/
def upperhex (n : Nat) : Char :=
  if n < 10 then Char.ofNat (48 + n) else Char.ofNat (55 + n)

/-- The escape of one byte in a query component. -/
def escapeByte (b : Nat) : List Char :=
  if shouldEscape b then
    (if b == 32 then ['+'] else ['%', upperhex (b / 16), upperhex (b % 16)])
  else [Char.ofNat b]

/-- Go `url.QueryEscape`. -/
def QueryEscape (s : String) : String :=
  String.mk (s.data.flatMap fun c => (utf8Bytes c).flatMap escapeByte)

/-- Go `url.Values`, a map from key to values, as an association list with
one pair per key. -/
structure Values where
  pairs : List (String × List String)
  deriving DecidableEq, Repr

/-- Go `Values.Set`: the key now has the single value `value`. -/
def Values.Set (v : Values) (key value : String) : Values :=
  if v.pairs.any (fun p => p.1 == key) then
    ⟨v.pairs.map (fun p => if p.1 == key then (p.1, [value]) else p)⟩
  else ⟨v.pairs ++ [(key, [value])]⟩

/-- Insertion of one pair into a list of pairs sorted by key; keys compare
character by character, which is the byte order of their UTF-8 form. -/
def insertByKey (p : String × List String) :
    List (String × List String) → List (String × List String)
  | [] => [p]
  | q :: rest => if q.1.data < p.1.data then q :: insertByKey p rest else p :: q :: rest

/-- The pairs of a `Values` sorted by key, the order in which `Encode` walks. -/
def sortByKey (v : Values) : List (String × List String) := v.pairs.foldr insertByKey []

/-- Strings joined with `&` between them. -/
def joinAmp : List String → String
  | [] => ""
  | [a] => a
  | a :: b :: rest => a ++ "&" ++ joinAmp (b :: rest)

/-- Go `Values.Encode`: `key=value` pairs, both query-escaped, joined by `&`,
sorted by key. -/
def Values.Encode (v : Values) : String :=
  joinAmp ((sortByKey v).flatMap fun p => p.2.map fun x => QueryEscape p.1 ++ "=" ++ QueryEscape x)

/-- A parsed `url.URL`: everything before the query, and the query. -/
structure URL where
  base : String
  RawQuery : String
  deriving DecidableEq, Repr

/-- Go `stringContainsCTLByte` on one character. -/
def isCTL (c : Char) : Bool := c.toNat < 32 || c.toNat == 127

/-- The list `l` cut at the first `sep`: what is before, and what is after
(`none` when there is no `sep`). -/
def cutAt (sep : Char) : List Char → List Char × Option (List Char)
  | [] => ([], none)
  | c :: cs =>
    if c = sep then ([], some cs)
    else
      let r := cutAt sep cs
      (c :: r.1, r.2)

/-- Go `u.String()` for a URL with an empty fragment: the `?` and the query
are written only when the query is not empty. -/
def URL.String (u : URL) : String :=
  if u.RawQuery = "" then u.base else u.base ++ "?" ++ u.RawQuery

/-! ## The libraries taken as parameters -/

/-- Go `refreshTokenRequest`. -/
structure refreshTokenRequest where
  MailAddress : String
  Password : String
  deriving DecidableEq, Repr

/-- Go `refreshTokenResponse`. -/
structure refreshTokenResponse where
  RefreshToken : String
  deriving DecidableEq, Repr

/-- Go `idTokenResponse`. -/
structure idTokenResponse where
  IDToken : String
  deriving DecidableEq, Repr

/-- One element of `tradingCalendarResponse.TradingCalendar`. -/
structure tradingCalendarItem where
  Date : String
  HolidayDivision : String
  deriving DecidableEq, Repr

/-- Go `tradingCalendarResponse`. -/
structure tradingCalendarResponse where
  TradingCalendar : List tradingCalendarItem
  deriving DecidableEq, Repr

/-- What the package uses of the standard library and does not fix itself:
`json.Marshal` on a `refreshTokenRequest`, `json.Unmarshal` into each of the
three response types (a field absent from the JSON object keeps its zero
value), `strconv.Quote`, the text of a `time.Parse` error, and `url.ParseQuery`
on a query that is not empty. -/
structure Lib where
  jsonMarshal : refreshTokenRequest → Except String String
  unmarshalRefreshToken : String → Except String refreshTokenResponse
  unmarshalIDToken : String → Except String idTokenResponse
  unmarshalTradingCalendar : String → Except String tradingCalendarResponse
  quote : String → String
  timeParseError : String → String
  parseQuery : String → Values

/-- Go `url.Parse` for a URL without fragment: a control character is an
error, the query is what follows the first `?`. -/
def urlParse (lib : Lib) (rawURL : String) : Except String URL :=
  if rawURL.data.any isCTL then
    .error ("parse " ++ lib.quote rawURL ++ ": net/url: invalid control character in URL")
  else
    match cutAt '?' rawURL.data with
    | (b, none) => .ok { base := String.mk b, RawQuery := "" }
    | (b, some q) => .ok { base := String.mk b, RawQuery := String.mk q }

/-- Go `u.Query()`. -/
def URL.Query (lib : Lib) (u : URL) : Values :=
  if u.RawQuery = "" then ⟨[]⟩ else lib.parseQuery u.RawQuery

/-- Go `strconv.Atoi`, with the text of its `*NumError`. -/
def Atoi (lib : Lib) (s : String) : Except String Int :=
  match atoiCore s with
  | .ok n => .ok n
  | .error .ErrSyntax => .error ("strconv.Atoi: parsing " ++ lib.quote s ++ ": invalid syntax")
  | .error .ErrRange => .error ("strconv.Atoi: parsing " ++ lib.quote s ++ ": value out of range")

/-- Go `time.Parse("2006-01-02", value)`. -/
def timeParse (lib : Lib) (value : String) : Except String Time :=
  match parseDate value with
  | some t => .ok t
  | none => .error (lib.timeParseError value)

/-! ## net/http and the world outside -/

/-- An `http.Request` as the transport receives it. -/
structure Request where
  Method : String
  URL : String
  Header : List (String × String)
  Body : Option String
  deriving DecidableEq, Repr

/-- An `http.Response`: `Body` is what `io.ReadAll(resp.Body)` returns. -/
structure Response where
  StatusCode : Int
  Status : String
  Body : Except String String

/-- The transport (`http.DefaultClient.Do`): an oracle with a state of its
own, answering a request with a response or a transport error. -/
structure Transport (σ : Type) where
  Do : σ → Request → Except String Response × σ

/-- The world a call runs in: the state of the transport, the requests sent so
far in order, how many response bodies were read, and what was printed. -/
structure Sys (σ : Type) where
  net : σ
  sent : List Request
  bodyReads : Nat
  stdout : List String

/-- Go `http.NewRequest(method, url, body)` for the constant methods `GET` and
`POST`: it fails when the URL does not parse. -/
def NewRequest (lib : Lib) (method url : String) (body : Option String) : Except String Request :=
  match urlParse lib url with
  | .error err => .error err
  | .ok _ => .ok { Method := method, URL := url, Header := [], Body := body }

/-- Go `client.Do(req)`: the request is handed to the transport and recorded. -/
def clientDo {σ : Type} (tr : Transport σ) (req : Request) (sys : Sys σ) :
    Except String Response × Sys σ :=
  let r := tr.Do sys.net req
  (r.1, { sys with net := r.2, sent := sys.sent ++ [req] })

/-- Go `http.Post(url, contentType, body)`. -/
def httpPost {σ : Type} (lib : Lib) (tr : Transport σ) (url contentType : String)
    (body : Option String) (sys : Sys σ) : Except String Response × Sys σ :=
  match NewRequest lib "POST" url body with
  | .error err => (.error err, sys)
  | .ok req => clientDo tr { req with Header := req.Header ++ [("Content-Type", contentType)] } sys

/-- Go `io.ReadAll(resp.Body)`. -/
def ioReadAll {σ : Type} (resp : Response) (sys : Sys σ) : Except String String × Sys σ :=
  (resp.Body, { sys with bodyReads := sys.bodyReads + 1 })

/-! ## api.go -/

/-- Go `BASE_URL`. -/
def BASE_URL : String := "https://api.jquants.com/v1"

/-- Go `HolidayDivision`, an `int`. -/
abbrev HolidayDivision := Int

/-- Go `Holiday`. -/
def Holiday : HolidayDivision := 0
/-- Go `BusinessDay`. -/
def BusinessDay : HolidayDivision := 1
/-- Go `HalfDay`. -/
def HalfDay : HolidayDivision := 2
/-- Go `TradingHoliday`. -/
def TradingHoliday : HolidayDivision := 3

/-- Go `TradingCalendarParam`: three pointers, `none` for `nil`. -/
structure TradingCalendarParam where
  HolidayDivision : Option HolidayDivision
  From : Option Time
  To : Option Time
  deriving DecidableEq, Repr

/-- Go `clientImpl`. -/
structure clientImpl where
  idToken : String
  deriving DecidableEq, Repr

/-- Go `DateHolidayDivision`. -/
structure DateHolidayDivision where
  Date : Time
  HolidayDivision : HolidayDivision
  deriving DecidableEq, Repr

/-- Go `(*clientImpl).getRefreshToken`. -/
def getRefreshToken {σ : Type} (lib : Lib) (tr : Transport σ) (_c : clientImpl)
    (mailAddress password : String) (sys : Sys σ) : (String × GoError) × Sys σ :=
  let path := "/token/auth_user"
  let url := BASE_URL ++ path
  match lib.jsonMarshal { MailAddress := mailAddress, Password := password } with
  | .error err => (("", some ("getRefreshToken json.Marshal failed: " ++ err)), sys)
  | .ok reqBytes =>
    match httpPost lib tr url "application/json" (some reqBytes) sys with
    | (.error err, sys1) => (("", some ("getRefreshToken http.Post failed: " ++ err)), sys1)
    | (.ok resp, sys1) =>
      if resp.StatusCode ≠ 200 then
        (("", some ("getRefreshToken got non 200 HTTP status code "
          ++ Itoa resp.StatusCode ++ ": " ++ resp.Status)), sys1)
      else
        match ioReadAll resp sys1 with
        | (.error err, sys2) => (("", some ("getRefreshToken io.ReadAll failed: " ++ err)), sys2)
        | (.ok respBytes, sys2) =>
          match lib.unmarshalRefreshToken respBytes with
          | .error err => (("", some ("getRefreshToken json.Unmarshal failed: " ++ err)), sys2)
          | .ok result => ((result.RefreshToken, none), sys2)

/-- Go `(*clientImpl).getIDToken`. -/
def getIDToken {σ : Type} (lib : Lib) (tr : Transport σ) (_c : clientImpl)
    (refreshToken : String) (sys : Sys σ) : (String × GoError) × Sys σ :=
  let path := "/token/auth_refresh"
  let endpoint := BASE_URL ++ path
  match urlParse lib endpoint with
  | .error err => (("", some ("getIDToken url.Parse failed: " ++ err)), sys)
  | .ok u =>
    let q := u.Query lib
    let q := q.Set "refreshtoken" refreshToken
    let u := { u with RawQuery := q.Encode }
    match httpPost lib tr u.String "application/json" none sys with
    | (.error err, sys1) => (("", some ("getIDToken http.Post failed: " ++ err)), sys1)
    | (.ok resp, sys1) =>
      if resp.StatusCode ≠ 200 then
        (("", some ("getIDToken got non 200 HTTP status code "
          ++ Itoa resp.StatusCode ++ ": " ++ resp.Status)), sys1)
      else
        match ioReadAll resp sys1 with
        | (.error err, sys2) => (("", some ("getIDToken io.ReadAll failed: " ++ err)), sys2)
        | (.ok respBytes, sys2) =>
          match lib.unmarshalIDToken respBytes with
          | .error err => (("", some ("getIDToken json.Unmarshal failed: " ++ err)), sys2)
          | .ok result => ((result.IDToken, none), sys2)

/-- Go `New`: the client interface value is `none` for `nil`. -/
def New {σ : Type} (lib : Lib) (tr : Transport σ) (mailAddress password : String)
    (sys : Sys σ) : (Option clientImpl × GoError) × Sys σ :=
  let clt : clientImpl := { idToken := "" }
  match getRefreshToken lib tr clt mailAddress password sys with
  | ((_, some _), sys1) => ((none, none), sys1)
  | ((refreshToken, none), sys1) =>
    match getIDToken lib tr clt refreshToken sys1 with
    | ((_, some _), sys2) => ((none, none), sys2)
    | ((idToken, none), sys2) => ((some { clt with idToken := idToken }, none), sys2)

/-- The loop of `TradingCalendar` over the decoded elements: `dates` holds the
entries appended so far; the first element that fails to parse ends the call
with a nil slice and the error. -/
def parseItems (lib : Lib) (dates : List DateHolidayDivision) :
    List tradingCalendarItem → Option (List DateHolidayDivision) × GoError
  | [] => (some dates, none)
  | x :: rest =>
    match timeParse lib x.Date with
    | .error err =>
      (none, some ("TradingCalendar time.Parse failed " ++ x.Date ++ ": " ++ err))
    | .ok date =>
      match Atoi lib x.HolidayDivision with
      | .error err =>
        (none, some ("TradingCalendar strconv.Atoi failed " ++ x.HolidayDivision ++ ": " ++ err))
      | .ok division =>
        parseItems lib (dates ++ [{ Date := date, HolidayDivision := division }]) rest

/-- Go `(*clientImpl).TradingCalendar`: the slice is `none` for `nil`. -/
def TradingCalendar {σ : Type} (lib : Lib) (tr : Transport σ) (c : clientImpl)
    (param : TradingCalendarParam) (sys : Sys σ) :
    (Option (List DateHolidayDivision) × GoError) × Sys σ :=
  let path := "/markets/trading_calendar"
  let endpoint := BASE_URL ++ path
  match urlParse lib endpoint with
  | .error err => ((none, some ("TradingCalendar url.Parse failed: " ++ err)), sys)
  | .ok u =>
    let q := u.Query lib
    let q := match param.HolidayDivision with
      | some hd => q.Set "holidaydivision" (Itoa hd)
      | none => q
    let q := match param.From, param.To with
      | some from_, some to_ => (q.Set "from" from_.Format).Set "to" to_.Format
      | _, _ => q
    let u := { u with RawQuery := q.Encode }
    let sys := { sys with stdout := sys.stdout ++ ["URL: " ++ u.String ++ "\n"] }
    match NewRequest lib "GET" u.String none with
    | .error err => ((none, some ("TradingCalendar http.NewRequest failed: " ++ err)), sys)
    | .ok req =>
      let req := { req with Header := req.Header ++ [("Authorization", "Bearer " ++ c.idToken)] }
      match clientDo tr req sys with
      | (.error err, sys1) => ((none, some ("TradingCalendar http.Do failed: " ++ err)), sys1)
      | (.ok resp, sys1) =>
        if resp.StatusCode ≠ 200 then
          ((none, some ("TradingCalendar got non 200 HTTP status code "
            ++ Itoa resp.StatusCode ++ ": " ++ resp.Status)), sys1)
        else
          match ioReadAll resp sys1 with
          | (.error err, sys2) => ((none, some ("TradingCalendar io.ReadAll failed: " ++ err)), sys2)
          | (.ok respBytes, sys2) =>
            match lib.unmarshalTradingCalendar respBytes with
            | .error err =>
              ((none, some ("TradingCalendar json.Unmarshal failed: " ++ err)), sys2)
            | .ok result => (parseItems lib [] result.TradingCalendar, sys2)

/-! ## Concrete libraries and transports for the examples -/

/-- A transport that answers from a script: the state is the list of answers
still to give, one per request; when the script is exhausted the request
fails. -/
def scripted : Transport (List (Except String Response)) where
  Do := fun script _ =>
    match script with
    | [] => (.error "connection refused", [])
    | r :: rest => (r, rest)

/-- The world before any call, with the script `script` to play. -/
def freshSys (script : List (Except String Response)) : Sys (List (Except String Response)) :=
  { net := script, sent := [], bodyReads := 0, stdout := [] }

/-- The standard library on the values the examples use: `encoding/json` on
strings that need no escaping and on the bodies listed, `strconv.Quote` on
printable ASCII without quotes or backslashes. An object without the field
decodes to the zero value of the field and no error. -/
def sampleLib : Lib where
  jsonMarshal := fun r =>
    .ok ("\x7b\"mailaddress\":\"" ++ r.MailAddress ++ "\",\"password\":\"" ++ r.Password ++ "\"\x7d")
  unmarshalRefreshToken := fun body =>
    if body = "\x7b\"refreshToken\":\"rt\"\x7d" then .ok ⟨"rt"⟩
    else if body = "\x7b\x7d" then .ok ⟨""⟩
    else .error "unexpected end of JSON input"
  unmarshalIDToken := fun body =>
    if body = "\x7b\"idToken\":\"id\"\x7d" then .ok ⟨"id"⟩
    else if body = "\x7b\x7d" then .ok ⟨""⟩
    else .error "unexpected end of JSON input"
  unmarshalTradingCalendar := fun body =>
    if body = "\x7b\"trading_calendar\":[\x7b\"date\":\"2024-01-04\",\"holidaydivision\":\"1\"\x7d]\x7d" then
      .ok ⟨[⟨"2024-01-04", "1"⟩]⟩
    else if body = "\x7b\"trading_calendar\":[\x7b\"date\":\"2024-01-04\",\"holidaydivision\":\"9223372036854775808\"\x7d]\x7d" then
      .ok ⟨[⟨"2024-01-04", "9223372036854775808"⟩]⟩
    else if body = "\x7b\"trading_calendar\":[\x7b\"date\":\"2024-01-04\",\"holidaydivision\":\"9223372036854775808\"\x7d,\x7b\"date\":\"x\",\"holidaydivision\":\"1\"\x7d]\x7d" then
      .ok ⟨[⟨"2024-01-04", "9223372036854775808"⟩, ⟨"x", "1"⟩]⟩
    else if body = "\x7b\"trading_calendar\":[\x7b\"date\":\"2024-01-04\",\"holidaydivision\":\"1\"\x7d,\x7b\"date\":\"x\",\"holidaydivision\":\"1\"\x7d]\x7d" then
      .ok ⟨[⟨"2024-01-04", "1"⟩, ⟨"x", "1"⟩]⟩
    else if body = "\x7b\"trading_calendar\":[]\x7d" then .ok ⟨[]⟩
    else .error "unexpected end of JSON input"
  quote := fun s => "\"" ++ s ++ "\""
  timeParseError := fun s =>
    "parsing time \"" ++ s ++ "\" as \"2006-01-02\": cannot parse \"" ++ s ++ "\" as \"2006\""
  parseQuery := fun _ => ⟨[]⟩

/-- A response with status 200 and the body `body`. -/
def ok200 (body : String) : Except String Response :=
  .ok { StatusCode := 200, Status := "200 OK", Body := .ok body }

/-- A response with status 401. -/
def unauthorized : Except String Response :=
  .ok { StatusCode := 401, Status := "401 Unauthorized", Body := .ok "" }

/-! ## Observations on requests and the words of the specification -/

/-- The query string of a request URL: what follows its first `?`. -/
def queryOf (url : String) : String :=
  match cutAt '?' url.data with
  | (_, some q) => String.mk q
  | (_, none) => ""

/-- The segments of `l` between the occurrences of `sep`. -/
def splitOn (sep : Char) : List Char → List (List Char)
  | [] => [[]]
  | c :: cs =>
    if c = sep then [] :: splitOn sep cs
    else
      match splitOn sep cs with
      | [] => [[c]]
      | seg :: segs => (c :: seg) :: segs

/-- The parameters of a query string in the order written: the segments
between `&`, the empty ones skipped, each cut at its first `=`. Keys and
values are as written, not unescaped. -/
def queryParams (query : String) : List (String × String) :=
  ((splitOn '&' query.data).filter (fun seg => !seg.isEmpty)).map fun seg =>
    let r := cutAt '=' seg
    (String.mk r.1, String.mk (r.2.getD []))

/-- The parameters of a request URL whose key is `key`. -/
def paramsNamed (key : String) (url : String) : List (String × String) :=
  (queryParams (queryOf url)).filter (fun p => p.1 == key)

/-- A decimal digit or a hyphen: the characters of a formatted date and of a
formatted integer. -/
def isDateChar (c : Char) : Prop := (48 ≤ c.toNat ∧ c.toNat ≤ 57) ∨ c = '-'

/-- The request `getRefreshToken` sends, `reqBytes` being the marshalled
credentials. -/
def authUserRequest (reqBytes : String) : Request :=
  { Method := "POST", URL := BASE_URL ++ "/token/auth_user",
    Header := [("Content-Type", "application/json")], Body := some reqBytes }

/-- The request `getIDToken` sends for the refresh token `refreshToken`. -/
def authRefreshRequest (refreshToken : String) : Request :=
  { Method := "POST",
    URL := BASE_URL ++ "/token/auth_refresh" ++ "?" ++ ("refreshtoken=" ++ QueryEscape refreshToken),
    Header := [("Content-Type", "application/json")], Body := none }

/-- The query string `TradingCalendar` writes for `param`, keys in sorted
order. -/
def calendarQuery (param : TradingCalendarParam) : String :=
  match param.HolidayDivision, param.From, param.To with
  | none, some f, some t => "from=" ++ f.Format ++ "&to=" ++ t.Format
  | some d, some f, some t =>
    "from=" ++ f.Format ++ "&holidaydivision=" ++ Itoa d ++ "&to=" ++ t.Format
  | some d, _, _ => "holidaydivision=" ++ Itoa d
  | none, _, _ => ""

/-- The parameters `calendarQuery param` writes, in the order written. -/
def calendarPairs (param : TradingCalendarParam) : List (String × String) :=
  match param.HolidayDivision, param.From, param.To with
  | none, some f, some t => [("from", f.Format), ("to", t.Format)]
  | some d, some f, some t =>
    [("from", f.Format), ("holidaydivision", Itoa d), ("to", t.Format)]
  | some d, _, _ => [("holidaydivision", Itoa d)]
  | none, _, _ => []

/-- The request `TradingCalendar` sends for `param` with the client `c`. -/
def calendarRequest (c : clientImpl) (param : TradingCalendarParam) : Request :=
  { Method := "GET",
    URL := URL.String { base := BASE_URL ++ "/markets/trading_calendar",
                        RawQuery := calendarQuery param },
    Header := [("Authorization", "Bearer " ++ c.idToken)], Body := none }

/-- Spec wording "a valid YYYY-MM-DD calendar date": four digits, a hyphen,
two digits, a hyphen, two digits, the month within 1..12 and the day within
the month of that year; `t` is the date written. -/
def IsDateString (s : String) (t : Time) : Prop :=
  ∃ a b c d e f g h : Nat,
    a < 10 ∧ b < 10 ∧ c < 10 ∧ d < 10 ∧ e < 10 ∧ f < 10 ∧ g < 10 ∧ h < 10 ∧
    s = String.mk [Nat.digitChar a, Nat.digitChar b, Nat.digitChar c, Nat.digitChar d, '-',
      Nat.digitChar e, Nat.digitChar f, '-', Nat.digitChar g, Nat.digitChar h] ∧
    t = { Year := ((1000 * a + 100 * b + 10 * c + d : Nat) : Int),
          Month := 10 * e + f, Day := 10 * g + h } ∧
    1 ≤ 10 * e + f ∧ 10 * e + f ≤ 12 ∧
    1 ≤ 10 * g + h ∧ 10 * g + h ≤ daysIn (10 * e + f) (1000 * a + 100 * b + 10 * c + d)

/-- The number that a list of decimal digits writes. -/
def decimalValue (ds : List Char) : Nat :=
  ds.foldl (fun acc c => acc * 10 + (c.toNat - 48)) 0

/-- Spec wording "a decimal integer string": an optional sign followed by one
or more decimal digits; `v` is the integer written. -/
def IsIntegerString (s : String) (v : Int) : Prop :=
  ∃ ds : List Char, ds ≠ [] ∧ (∀ c ∈ ds, 48 ≤ c.toNat ∧ c.toNat ≤ 57) ∧
    ((s.data = ds ∧ v = (decimalValue ds : Int))
      ∨ (s.data = '+' :: ds ∧ v = (decimalValue ds : Int))
      ∨ (s.data = '-' :: ds ∧ v = -(decimalValue ds : Int)))

/-- The integers a Go `int` holds. -/
def InIntRange (v : Int) : Prop :=
  -(2 : Int) ^ (intSize - 1) ≤ v ∧ v < (2 : Int) ^ (intSize - 1)

/-- An element of the response that parses: its date is a valid date string
and its division an integer string whose value a Go `int` holds. -/
def ItemParses (x : tradingCalendarItem) (e : DateHolidayDivision) : Prop :=
  IsDateString x.Date e.Date ∧ IsIntegerString x.HolidayDivision e.HolidayDivision
    ∧ InIntRange e.HolidayDivision

/-! ## Characters, bytes and escaping -/

theorem char_toNat_lt (c : Char) : c.toNat < 0x110000 := by
  have h := c.valid
  unfold UInt32.isValidChar Nat.isValidChar at h
  unfold Char.toNat
  omega

theorem upperhex_not_CTL (n : Nat) (h : n < 16) : isCTL (upperhex n) = false := by
  interval_cases n <;> rfl

theorem utf8Bytes_lt (c : Char) : ∀ b ∈ utf8Bytes c, b < 256 := by
  intro b hb
  have hc := char_toNat_lt c
  unfold utf8Bytes at hb
  simp only at hb
  split_ifs at hb <;> simp at hb <;> omega

theorem utf8Bytes_ascii (c : Char) (h : c.toNat < 128) : utf8Bytes c = [c.toNat] := by
  unfold utf8Bytes
  simp [h]

theorem utf8Bytes_high (c : Char) (h : 128 ≤ c.toNat) : ∀ b ∈ utf8Bytes c, 128 ≤ b := by
  intro b hb
  unfold utf8Bytes at hb
  simp only at hb
  split_ifs at hb <;> simp at hb <;> omega

theorem shouldEscape_high (b : Nat) (h : 128 ≤ b) : shouldEscape b = true := by
  unfold shouldEscape
  simp
  omega

theorem escapeByte_not_CTL (c : Char) :
    ∀ b ∈ utf8Bytes c, ∀ x ∈ escapeByte b, isCTL x = false := by
  intro b hb x hx
  have hlt := utf8Bytes_lt c b hb
  unfold escapeByte at hx
  split_ifs at hx with h1 h2
  · simp at hx; subst hx; rfl
  · simp at hx
    rcases hx with rfl | rfl | rfl
    · rfl
    · exact upperhex_not_CTL _ (by omega)
    · exact upperhex_not_CTL _ (by omega)
  · simp at hx
    subst hx
    by_cases hc : c.toNat < 128
    · rw [utf8Bytes_ascii c hc] at hb
      simp at hb
      subst hb
      rw [Char.ofNat_toNat]
      unfold shouldEscape at h1
      unfold isCTL
      simp at h1 ⊢
      omega
    · have := utf8Bytes_high c (by omega) b hb
      rw [shouldEscape_high b this] at h1
      exact absurd rfl h1

theorem QueryEscape_not_CTL (s : String) : (QueryEscape s).data.any isCTL = false := by
  rw [List.any_eq_false]
  intro x hx
  unfold QueryEscape at hx
  simp only [List.mem_flatMap] at hx
  obtain ⟨c, _, b, hb, hx⟩ := hx
  simp [escapeByte_not_CTL c b hb x hx]

theorem digitChar_isDigit (n : Nat) (h : n < 10) :
    48 ≤ (Nat.digitChar n).toNat ∧ (Nat.digitChar n).toNat ≤ 57 := by
  interval_cases n <;> decide

theorem toDigitsCore_isDigit (fuel n : Nat) (acc : List Char)
    (hacc : ∀ c ∈ acc, 48 ≤ c.toNat ∧ c.toNat ≤ 57) :
    ∀ c ∈ Nat.toDigitsCore 10 fuel n acc, 48 ≤ c.toNat ∧ c.toNat ≤ 57 := by
  induction fuel generalizing n acc with
  | zero => simpa [Nat.toDigitsCore] using hacc
  | succ k ih =>
    intro c hc
    unfold Nat.toDigitsCore at hc
    simp only at hc
    have hd := digitChar_isDigit (n % 10) (Nat.mod_lt _ (by decide))
    split_ifs at hc
    · rcases List.mem_cons.mp hc with rfl | h
      · exact hd
      · exact hacc c h
    · refine ih (n / 10) (Nat.digitChar (n % 10) :: acc) ?_ c hc
      intro x hx
      rcases List.mem_cons.mp hx with rfl | h
      · exact hd
      · exact hacc x h

theorem repr_isDigit (n : Nat) : ∀ c ∈ (Nat.repr n).data, 48 ≤ c.toNat ∧ c.toNat ≤ 57 := by
  intro c hc
  unfold Nat.repr Nat.toDigits at hc
  exact toDigitsCore_isDigit _ _ [] (by simp) c hc

theorem Itoa_isDateChar (i : Int) : ∀ c ∈ (Itoa i).data, isDateChar c := by
  intro c hc
  unfold Itoa at hc
  cases i with
  | ofNat n => exact Or.inl (repr_isDigit n c hc)
  | negSucc n =>
    simp only [String.data_append] at hc
    rcases List.mem_append.mp hc with h | h
    · right; simpa using h
    · exact Or.inl (repr_isDigit _ c h)

theorem appendInt_isDateChar (x : Int) (w : Nat) : ∀ c ∈ (appendInt x w).data, isDateChar c := by
  intro c hc
  unfold appendInt at hc
  simp only [List.mem_append] at hc
  rcases hc with (h | h) | h
  · split_ifs at h
    · right; simpa using h
    · simp at h
  · have := List.eq_of_mem_replicate h
    subst this
    left; decide
  · exact Or.inl (repr_isDigit _ c h)

theorem Format_isDateChar (t : Time) : ∀ c ∈ t.Format.data, isDateChar c := by
  intro c hc
  unfold Time.Format at hc
  simp only [String.data_append, List.mem_append] at hc
  rcases hc with (((h | h) | h) | h) | h
  · exact appendInt_isDateChar _ _ c h
  · right; simpa using h
  · exact appendInt_isDateChar _ _ c h
  · right; simpa using h
  · exact appendInt_isDateChar _ _ c h

theorem isDateChar_toNat {c : Char} (h : isDateChar c) :
    (48 ≤ c.toNat ∧ c.toNat ≤ 57) ∨ c.toNat = 45 := by
  rcases h with h | rfl
  · exact Or.inl h
  · right; rfl

theorem escape_dateChar {c : Char} (h : isDateChar c) :
    (utf8Bytes c).flatMap escapeByte = [c] := by
  have h2 := isDateChar_toNat h
  rw [utf8Bytes_ascii c (by omega)]
  have hs : shouldEscape c.toNat = false := by
    unfold shouldEscape
    simp
    omega
  simp [escapeByte, hs]

theorem QueryEscape_dateChars (s : String) (h : ∀ c ∈ s.data, isDateChar c) :
    QueryEscape s = s := by
  unfold QueryEscape
  have : ∀ l : List Char, (∀ c ∈ l, isDateChar c) →
      (l.flatMap fun c => (utf8Bytes c).flatMap escapeByte) = l := by
    intro l
    induction l with
    | nil => intro _; rfl
    | cons a l ih =>
      intro hl
      rw [List.flatMap_cons, escape_dateChar (hl a (List.mem_cons_self _ _)),
        ih (fun c hc => hl c (List.mem_cons_of_mem _ hc))]
      rfl
  rw [this s.data h]

theorem dateChar_not_CTL {c : Char} (h : isDateChar c) : isCTL c = false := by
  have h2 := isDateChar_toNat h
  unfold isCTL
  simp
  omega

theorem cutAt_none (sep : Char) (a : List Char) (h : sep ∉ a) : cutAt sep a = (a, none) := by
  induction a with
  | nil => rfl
  | cons c cs ih =>
    have hc : c ≠ sep := fun e => h (e ▸ List.mem_cons_self _ _)
    have ih2 := ih (fun e => h (List.mem_cons_of_mem _ e))
    simp [cutAt, hc, ih2]

theorem cutAt_append (sep : Char) (a b : List Char) (h : sep ∉ a) :
    cutAt sep (a ++ sep :: b) = (a, some b) := by
  induction a with
  | nil => simp [cutAt]
  | cons c cs ih =>
    have hc : c ≠ sep := fun e => h (e ▸ List.mem_cons_self _ _)
    have ih2 := ih (fun e => h (List.mem_cons_of_mem _ e))
    simp [cutAt, hc, ih2]

theorem ne_empty_of_data {s : String} (h : s.data ≠ []) : s ≠ "" := by
  intro e
  exact h (by rw [e])

theorem urlParse_String (lib : Lib) (u : URL) (hb : u.base.data.any isCTL = false)
    (hq : u.RawQuery.data.any isCTL = false) (hn : '?' ∉ u.base.data) :
    urlParse lib u.String = .ok u := by
  unfold urlParse URL.String
  by_cases he : u.RawQuery = ""
  · simp only [he, if_true, hb]
    rw [cutAt_none _ _ hn]
    cases u
    simp_all
  · have : (u.base ++ "?" ++ u.RawQuery).data.any isCTL = false := by
      simp only [String.data_append, List.any_append, hb, hq]
      rfl
    simp only [he, if_false, this]
    have hd : (u.base ++ "?" ++ u.RawQuery).data = u.base.data ++ '?' :: u.RawQuery.data := by
      simp [String.data_append]
    rw [hd, cutAt_append _ _ _ hn]
    cases u
    simp

theorem urlParse_auth_user (lib : Lib) :
    urlParse lib (BASE_URL ++ "/token/auth_user")
      = .ok { base := BASE_URL ++ "/token/auth_user", RawQuery := "" } := by
  rfl

theorem urlParse_auth_refresh (lib : Lib) :
    urlParse lib (BASE_URL ++ "/token/auth_refresh")
      = .ok { base := BASE_URL ++ "/token/auth_refresh", RawQuery := "" } := by
  rfl

theorem urlParse_trading_calendar (lib : Lib) :
    urlParse lib (BASE_URL ++ "/markets/trading_calendar")
      = .ok { base := BASE_URL ++ "/markets/trading_calendar", RawQuery := "" } := by
  rfl

theorem Encode_refreshtoken (t : String) :
    ((⟨[]⟩ : Values).Set "refreshtoken" t).Encode = "refreshtoken=" ++ QueryEscape t := by
  simp [Values.Set, Values.Encode, sortByKey, insertByKey, joinAmp]
  rfl

theorem QueryEscape_from : QueryEscape "from" = "from" := by decide
theorem QueryEscape_to : QueryEscape "to" = "to" := by decide
theorem QueryEscape_holidaydivision : QueryEscape "holidaydivision" = "holidaydivision" := by decide

theorem Encode_hd (d : String) :
    ((⟨[]⟩ : Values).Set "holidaydivision" d).Encode = "holidaydivision=" ++ QueryEscape d := by
  simp [Values.Set, Values.Encode, sortByKey, insertByKey, joinAmp, QueryEscape_holidaydivision]

theorem Encode_range (f t : String) :
    (((⟨[]⟩ : Values).Set "from" f).Set "to" t).Encode
      = "from=" ++ QueryEscape f ++ "&to=" ++ QueryEscape t := by
  have h1 : ¬ ("to".data < "from".data) := by decide
  simp [Values.Set, Values.Encode, sortByKey, insertByKey, joinAmp, QueryEscape_from,
    QueryEscape_to, h1]
  apply String.ext
  simp [String.data_append]

theorem Encode_hd_range (d f t : String) :
    ((((⟨[]⟩ : Values).Set "holidaydivision" d).Set "from" f).Set "to" t).Encode
      = "from=" ++ QueryEscape f ++ "&holidaydivision=" ++ QueryEscape d
        ++ "&to=" ++ QueryEscape t := by
  have h1 : ¬ ("to".data < "from".data) := by decide
  have h2 : ¬ ("to".data < "holidaydivision".data) := by decide
  have h3 : ¬ ("holidaydivision".data < "from".data) := by decide
  have h4 : ("from".data < "to".data) := by decide
  have h5 : ("holidaydivision".data < "to".data) := by decide
  have h6 : ("from".data < "holidaydivision".data) := by decide
  simp [Values.Set, Values.Encode, sortByKey, insertByKey, joinAmp, QueryEscape_from,
    QueryEscape_to, QueryEscape_holidaydivision, h1, h2, h3, h4, h5, h6]
  apply String.ext
  simp [String.data_append]

/-! ## What each call does, given the answer of the transport -/

theorem getRefreshToken_marshal_error {σ : Type} (lib : Lib) (tr : Transport σ) (c : clientImpl)
    (mail pw : String) (sys : Sys σ) (e : String)
    (hm : lib.jsonMarshal { MailAddress := mail, Password := pw } = .error e) :
    getRefreshToken lib tr c mail pw sys
      = (("", some ("getRefreshToken json.Marshal failed: " ++ e)), sys) := by
  unfold getRefreshToken
  simp only [hm]

theorem getRefreshToken_run {σ : Type} (lib : Lib) (tr : Transport σ) (c : clientImpl)
    (mail pw : String) (sys : Sys σ) (b : String)
    (hm : lib.jsonMarshal { MailAddress := mail, Password := pw } = .ok b) :
    getRefreshToken lib tr c mail pw sys =
      let sys1 : Sys σ := { sys with net := (tr.Do sys.net (authUserRequest b)).2,
                                     sent := sys.sent ++ [authUserRequest b] }
      match (tr.Do sys.net (authUserRequest b)).1 with
      | .error err => (("", some ("getRefreshToken http.Post failed: " ++ err)), sys1)
      | .ok resp =>
        if resp.StatusCode ≠ 200 then
          (("", some ("getRefreshToken got non 200 HTTP status code "
            ++ Itoa resp.StatusCode ++ ": " ++ resp.Status)), sys1)
        else
          match resp.Body with
          | .error err => (("", some ("getRefreshToken io.ReadAll failed: " ++ err)),
              { sys1 with bodyReads := sys.bodyReads + 1 })
          | .ok respBytes =>
            match lib.unmarshalRefreshToken respBytes with
            | .error err => (("", some ("getRefreshToken json.Unmarshal failed: " ++ err)),
                { sys1 with bodyReads := sys.bodyReads + 1 })
            | .ok result => ((result.RefreshToken, none),
                { sys1 with bodyReads := sys.bodyReads + 1 }) := by
  unfold getRefreshToken
  simp only [hm, httpPost, NewRequest, urlParse_auth_user, clientDo, List.nil_append]
  unfold authUserRequest
  generalize tr.Do sys.net _ = r
  obtain ⟨r1, n⟩ := r
  cases r1 with
  | error e => rfl
  | ok resp =>
    dsimp only [ioReadAll]
    split_ifs with hs
    · rfl
    · cases hb : resp.Body with
      | error e => rfl
      | ok bytes =>
        dsimp only


theorem NewRequest_String (lib : Lib) (method : String) (u : URL) (body : Option String)
    (hb : u.base.data.any isCTL = false) (hq : u.RawQuery.data.any isCTL = false)
    (hn : '?' ∉ u.base.data) :
    NewRequest lib method u.String body
      = .ok { Method := method, URL := u.String, Header := [], Body := body } := by
  unfold NewRequest
  rw [urlParse_String lib u hb hq hn]

theorem dateChars_not_CTL (s : String) (h : ∀ c ∈ s.data, isDateChar c) :
    s.data.any isCTL = false := by
  rw [List.any_eq_false]
  intro x hx
  simp [dateChar_not_CTL (h x hx)]

theorem String_refresh (t : String) :
    URL.String { base := BASE_URL ++ "/token/auth_refresh",
                 RawQuery := "refreshtoken=" ++ QueryEscape t }
      = BASE_URL ++ "/token/auth_refresh" ++ "?" ++ ("refreshtoken=" ++ QueryEscape t) := by
  unfold URL.String
  rw [if_neg]
  apply ne_empty_of_data
  simp [String.data_append]

theorem getIDToken_run {σ : Type} (lib : Lib) (tr : Transport σ) (c : clientImpl)
    (t : String) (sys : Sys σ) :
    getIDToken lib tr c t sys =
      let sys1 : Sys σ := { sys with net := (tr.Do sys.net (authRefreshRequest t)).2,
                                     sent := sys.sent ++ [authRefreshRequest t] }
      match (tr.Do sys.net (authRefreshRequest t)).1 with
      | .error err => (("", some ("getIDToken http.Post failed: " ++ err)), sys1)
      | .ok resp =>
        if resp.StatusCode ≠ 200 then
          (("", some ("getIDToken got non 200 HTTP status code "
            ++ Itoa resp.StatusCode ++ ": " ++ resp.Status)), sys1)
        else
          match resp.Body with
          | .error err => (("", some ("getIDToken io.ReadAll failed: " ++ err)),
              { sys1 with bodyReads := sys.bodyReads + 1 })
          | .ok respBytes =>
            match lib.unmarshalIDToken respBytes with
            | .error err => (("", some ("getIDToken json.Unmarshal failed: " ++ err)),
                { sys1 with bodyReads := sys.bodyReads + 1 })
            | .ok result => ((result.IDToken, none),
                { sys1 with bodyReads := sys.bodyReads + 1 }) := by
  have hq : ("refreshtoken=" ++ QueryEscape t).data.any isCTL = false := by
    rw [String.data_append, List.any_append, QueryEscape_not_CTL]
    rfl
  have hb : (BASE_URL ++ "/token/auth_refresh").data.any isCTL = false := by decide
  have hn : '?' ∉ (BASE_URL ++ "/token/auth_refresh").data := by decide
  have hnew := NewRequest_String lib "POST"
    { base := BASE_URL ++ "/token/auth_refresh", RawQuery := "refreshtoken=" ++ QueryEscape t }
    none hb hq hn
  rw [String_refresh] at hnew
  unfold getIDToken
  simp only [urlParse_auth_refresh, URL.Query, if_true, Encode_refreshtoken, String_refresh,
    httpPost, hnew, clientDo, List.nil_append]
  unfold authRefreshRequest
  generalize tr.Do sys.net _ = r
  obtain ⟨r1, n⟩ := r
  cases r1 with
  | error e => rfl
  | ok resp =>
    dsimp only [ioReadAll]
    split_ifs with hs
    · rfl
    · cases hb : resp.Body with
      | error e => rfl
      | ok bytes =>
        dsimp only

theorem Encode_empty : (⟨[]⟩ : Values).Encode = "" := by rfl

theorem calendar_Encode (param : TradingCalendarParam) :
    (match param.From, param.To with
      | some from_, some to_ =>
        ((match param.HolidayDivision with
          | some hd => (⟨[]⟩ : Values).Set "holidaydivision" (Itoa hd)
          | none => ⟨[]⟩).Set "from" from_.Format).Set "to" to_.Format
      | _, _ =>
        (match param.HolidayDivision with
          | some hd => (⟨[]⟩ : Values).Set "holidaydivision" (Itoa hd)
          | none => ⟨[]⟩)).Encode = calendarQuery param := by
  obtain ⟨hd, f, t⟩ := param
  have hI : ∀ d, QueryEscape (Itoa d) = Itoa d := fun d =>
    QueryEscape_dateChars _ (Itoa_isDateChar d)
  have hF : ∀ x : Time, QueryEscape x.Format = x.Format := fun x =>
    QueryEscape_dateChars _ (Format_isDateChar x)
  cases hd <;> cases f <;> cases t <;>
    simp only [calendarQuery, Encode_empty, Encode_hd, Encode_range, Encode_hd_range, hI, hF]

theorem calendarQuery_not_CTL (param : TradingCalendarParam) :
    (calendarQuery param).data.any isCTL = false := by
  obtain ⟨hd, f, t⟩ := param
  have hI : ∀ d, (Itoa d).data.any isCTL = false := fun d =>
    dateChars_not_CTL _ (Itoa_isDateChar d)
  have hF : ∀ x : Time, x.Format.data.any isCTL = false := fun x =>
    dateChars_not_CTL _ (Format_isDateChar x)
  cases hd <;> cases f <;> cases t <;>
    simp only [calendarQuery, String.data_append, List.any_append, hI, hF] <;> rfl

theorem TradingCalendar_run {σ : Type} (lib : Lib) (tr : Transport σ) (c : clientImpl)
    (param : TradingCalendarParam) (sys : Sys σ) :
    TradingCalendar lib tr c param sys =
      let req := calendarRequest c param
      let sys1 : Sys σ := { net := (tr.Do sys.net req).2, sent := sys.sent ++ [req],
                            bodyReads := sys.bodyReads,
                            stdout := sys.stdout ++ ["URL: " ++ req.URL ++ "\n"] }
      match (tr.Do sys.net req).1 with
      | .error err => ((none, some ("TradingCalendar http.Do failed: " ++ err)), sys1)
      | .ok resp =>
        if resp.StatusCode ≠ 200 then
          ((none, some ("TradingCalendar got non 200 HTTP status code "
            ++ Itoa resp.StatusCode ++ ": " ++ resp.Status)), sys1)
        else
          match resp.Body with
          | .error err => ((none, some ("TradingCalendar io.ReadAll failed: " ++ err)),
              { sys1 with bodyReads := sys.bodyReads + 1 })
          | .ok respBytes =>
            match lib.unmarshalTradingCalendar respBytes with
            | .error err => ((none, some ("TradingCalendar json.Unmarshal failed: " ++ err)),
                { sys1 with bodyReads := sys.bodyReads + 1 })
            | .ok result => (parseItems lib [] result.TradingCalendar,
                { sys1 with bodyReads := sys.bodyReads + 1 }) := by
  have hb : (BASE_URL ++ "/markets/trading_calendar").data.any isCTL = false := by decide
  have hn : '?' ∉ (BASE_URL ++ "/markets/trading_calendar").data := by decide
  have hnew := NewRequest_String lib "GET"
    { base := BASE_URL ++ "/markets/trading_calendar", RawQuery := calendarQuery param }
    none hb (calendarQuery_not_CTL param) hn
  unfold TradingCalendar
  simp only [urlParse_trading_calendar, URL.Query, if_true]
  rw [calendar_Encode param]
  simp only [hnew, clientDo, List.nil_append]
  unfold calendarRequest
  generalize tr.Do sys.net _ = r
  obtain ⟨r1, n⟩ := r
  cases r1 with
  | error e => rfl
  | ok resp =>
    dsimp only [ioReadAll]
    split_ifs with hs
    · rfl
    · cases hb : resp.Body with
      | error e => rfl
      | ok bytes =>
        dsimp only

/-! ## Dates and integers: the parsers against the words of the specification -/

theorem digitVal_digitChar (a : Nat) (h : a < 10) : digitVal (Nat.digitChar a) = some a := by
  interval_cases a <;> rfl

theorem digitVal_some {c : Char} {v : Nat} (h : digitVal c = some v) :
    v < 10 ∧ c = Nat.digitChar v ∧ 48 ≤ c.toNat ∧ c.toNat ≤ 57 ∧ v = c.toNat - 48 := by
  unfold digitVal at h
  split_ifs at h with hc
  simp only [Option.some.injEq] at h
  have hcv : c = Char.ofNat c.toNat := (Char.ofNat_toNat c).symm
  obtain ⟨h1, h2⟩ := hc
  refine ⟨by omega, ?_, h1, h2, h.symm⟩
  rw [hcv]
  generalize c.toNat = n at *
  subst h
  interval_cases n <;> rfl

theorem digitVal_of_isDigit {c : Char} (h : 48 ≤ c.toNat ∧ c.toNat ≤ 57) :
    digitVal c = some (c.toNat - 48) := by
  unfold digitVal
  rw [if_pos h]

theorem readDigits_of_digits (ds : List Char) (acc : Nat)
    (h : ∀ c ∈ ds, 48 ≤ c.toNat ∧ c.toNat ≤ 57) :
    readDigits acc ds = some (ds.foldl (fun acc c => acc * 10 + (c.toNat - 48)) acc) := by
  induction ds generalizing acc with
  | nil => rfl
  | cons c cs ih =>
    unfold readDigits
    rw [digitVal_of_isDigit (h c (List.mem_cons_self _ _))]
    simp only [List.foldl_cons]
    exact ih _ (fun x hx => h x (List.mem_cons_of_mem _ hx))

theorem readDigits_some (ds : List Char) (acc n : Nat) (h : readDigits acc ds = some n) :
    (∀ c ∈ ds, 48 ≤ c.toNat ∧ c.toNat ≤ 57)
      ∧ n = ds.foldl (fun acc c => acc * 10 + (c.toNat - 48)) acc := by
  induction ds generalizing acc with
  | nil =>
    simp only [readDigits, Option.some.injEq] at h
    simp [h]
  | cons c cs ih =>
    unfold readDigits at h
    cases hd : digitVal c with
    | none => simp [hd] at h
    | some d =>
      simp only [hd] at h
      obtain ⟨_, _, h1, h2, hv⟩ := digitVal_some hd
      obtain ⟨ih1, ih2⟩ := ih _ h
      refine ⟨?_, ?_⟩
      · intro x hx
        rcases List.mem_cons.mp hx with rfl | hx
        · exact ⟨h1, h2⟩
        · exact ih1 x hx
      · rw [ih2, hv]
        rfl

theorem parseDate_of_IsDateString {s : String} {t : Time} (h : IsDateString s t) :
    parseDate s = some t := by
  obtain ⟨a, b, c, d, e, f, g, k, ha, hb, hc, hd, he, hf, hg, hk, rfl, rfl, h1, h2, h3, h4⟩ := h
  unfold parseDate
  simp only [readDigits, digitVal_digitChar, ha, hb, hc, hd, he, hf, hg, hk]
  have e1 : (((0 * 10 + a) * 10 + b) * 10 + c) * 10 + d = 1000 * a + 100 * b + 10 * c + d := by
    omega
  have e2 : (0 * 10 + e) * 10 + f = 10 * e + f := by omega
  have e3 : (0 * 10 + g) * 10 + k = 10 * g + k := by omega
  rw [e1, e2, e3]
  have n1 : ¬ (10 * e + f ≤ 0 ∨ 12 < 10 * e + f) := by omega
  have n2 : ¬ (10 * g + k < 1 ∨
      10 * g + k > daysIn (10 * e + f) (1000 * a + 100 * b + 10 * c + d)) := by omega
  rw [if_neg (by decide), if_neg n1, if_neg n2]

theorem IsDateString_of_parseDate {s : String} {t : Time} (h : parseDate s = some t) :
    IsDateString s t := by
  unfold parseDate at h
  split at h
  · rename_i y1 y2 y3 y4 s1 m1 m2 s2 d1 d2 hs
    split at h
    · rename_i year month day hy hm hd
      split_ifs at h with c1 c2 c3
      simp only [Option.some.injEq] at h
      simp only [readDigits] at hy hm hd
      cases v1 : digitVal y1 <;> simp only [v1] at hy <;> try contradiction
      cases v2 : digitVal y2 <;> simp only [v2] at hy <;> try contradiction
      cases v3 : digitVal y3 <;> simp only [v3] at hy <;> try contradiction
      cases v4 : digitVal y4 <;> simp only [v4] at hy <;> try contradiction
      cases v5 : digitVal m1 <;> simp only [v5] at hm <;> try contradiction
      cases v6 : digitVal m2 <;> simp only [v6] at hm <;> try contradiction
      cases v7 : digitVal d1 <;> simp only [v7] at hd <;> try contradiction
      cases v8 : digitVal d2 <;> simp only [v8] at hd <;> try contradiction
      rename_i a b c d e f g k
      obtain ⟨ha, ra, -⟩ := digitVal_some v1
      obtain ⟨hb, rb, -⟩ := digitVal_some v2
      obtain ⟨hc, rc, -⟩ := digitVal_some v3
      obtain ⟨hd4, rd, -⟩ := digitVal_some v4
      obtain ⟨he, re, -⟩ := digitVal_some v5
      obtain ⟨hf, rf, -⟩ := digitVal_some v6
      obtain ⟨hg, rg, -⟩ := digitVal_some v7
      obtain ⟨hk, rk, -⟩ := digitVal_some v8
      simp only [Option.some.injEq] at hy hm hd
      have q1 : s1 = '-' := by
        by_contra hne; exact c1 (Or.inl hne)
      have q2 : s2 = '-' := by
        by_contra hne; exact c1 (Or.inr hne)
      refine ⟨a, b, c, d, e, f, g, k, ha, hb, hc, hd4, he, hf, hg, hk, ?_, ?_, ?_, ?_, ?_, ?_⟩
      · apply String.ext
        rw [hs, ra, rb, rc, rd, re, rf, rg, rk, q1, q2]
      · rw [← h]
        have e1 : year = 1000 * a + 100 * b + 10 * c + d := by omega
        have e2 : month = 10 * e + f := by omega
        have e3 : day = 10 * g + k := by omega
        rw [e1, e2, e3]
      · omega
      · omega
      · omega
      · have e1 : year = 1000 * a + 100 * b + 10 * c + d := by omega
        have e2 : month = 10 * e + f := by omega
        have e3 : day = 10 * g + k := by omega
        rw [← e1, ← e2, ← e3]
        omega
    · contradiction
  · contradiction

theorem decimalValue_eq (ds : List Char) :
    ds.foldl (fun acc c => acc * 10 + (c.toNat - 48)) 0 = decimalValue ds := rfl

theorem readDigits_ge (ds : List Char) (acc n : Nat) (h : readDigits acc ds = some n) :
    acc ≤ n := by
  induction ds generalizing acc with
  | nil =>
    simp only [readDigits, Option.some.injEq] at h
    omega
  | cons c cs ih =>
    unfold readDigits at h
    cases hd : digitVal c with
    | none => simp [hd] at h
    | some d =>
      simp only [hd] at h
      have := ih _ h
      omega

theorem readDigits_of_scanUint (ds : List Char) (acc n : Nat)
    (h : scanUint acc ds = .ok n) : readDigits acc ds = some n := by
  induction ds generalizing acc with
  | nil =>
    simp only [scanUint, Except.ok.injEq] at h
    simp [readDigits, h]
  | cons c cs ih =>
    unfold scanUint at h
    unfold readDigits
    cases hd : digitVal c with
    | none =>
      rw [hd] at h
      exact absurd h (by simp)
    | some d =>
      rw [hd] at h
      dsimp only at h ⊢
      split_ifs at h
      exact ih _ h

theorem scanUint_of_readDigits (ds : List Char) (acc n : Nat)
    (h : readDigits acc ds = some n) (hn : n < 2 ^ 64) : scanUint acc ds = .ok n := by
  induction ds generalizing acc with
  | nil =>
    simp only [readDigits, Option.some.injEq] at h
    simp [scanUint, h]
  | cons c cs ih =>
    unfold readDigits at h
    unfold scanUint
    cases hd : digitVal c with
    | none =>
      rw [hd] at h
      exact absurd h (by simp)
    | some d =>
      rw [hd] at h
      dsimp only at h ⊢
      have hge := readDigits_ge cs _ n h
      have h1 : ¬ acc ≥ (2 ^ 64 - 1) / 10 + 1 := by
        norm_num at hn ⊢
        omega
      have h2 : ¬ acc * 10 + d > 2 ^ intSize - 1 := by
        unfold intSize
        norm_num at hn ⊢
        omega
      rw [if_neg h1, if_neg h2]
      exact ih _ h

theorem atoiDigits_ok_iff (neg : Bool) (ds : List Char) (v : Int) :
    atoiDigits neg ds = .ok v ↔
      ds ≠ [] ∧ (∀ c ∈ ds, 48 ≤ c.toNat ∧ c.toNat ≤ 57)
        ∧ v = (if neg then -(decimalValue ds : Int) else (decimalValue ds : Int))
        ∧ InIntRange v := by
  unfold atoiDigits InIntRange intSize
  constructor
  · intro h
    by_cases he : ds.isEmpty = true
    · rw [if_pos he] at h
      exact absurd h (by simp)
    rw [if_neg he] at h
    cases hs : scanUint 0 ds with
    | error k =>
      rw [hs] at h
      cases k <;> exact absurd h (by simp)
    | ok n =>
      rw [hs] at h
      dsimp only at h
      have hr := readDigits_of_scanUint ds 0 n hs
      obtain ⟨hdig, hn⟩ := readDigits_some ds 0 n hr
      rw [decimalValue_eq] at hn
      have hne : ds ≠ [] := by
        intro e; apply he; simp [e]
      cases neg with
      | true =>
        rw [if_pos rfl] at h
        by_cases hle : n ≤ 2 ^ (64 - 1)
        · rw [if_pos hle] at h
          simp only [Except.ok.injEq] at h
          refine ⟨hne, hdig, ?_, ?_⟩
          · simp [← h, hn]
          · rw [← h]
            norm_num at hle ⊢
            omega
        · rw [if_neg hle] at h
          exact absurd h (by simp)
      | false =>
        rw [if_neg (by simp)] at h
        by_cases hle : n < 2 ^ (64 - 1)
        · rw [if_pos hle] at h
          simp only [Except.ok.injEq] at h
          refine ⟨hne, hdig, ?_, ?_⟩
          · simp [← h, hn]
          · rw [← h]
            norm_num at hle ⊢
            omega
        · rw [if_neg hle] at h
          exact absurd h (by simp)
  · rintro ⟨hne, hdig, hv, hlo, hhi⟩
    have he : ds.isEmpty = false := by
      cases ds with
      | nil => exact absurd rfl hne
      | cons _ _ => rfl
    rw [he]
    simp only [Bool.false_eq_true, if_false]
    have hr := readDigits_of_digits ds 0 hdig
    rw [decimalValue_eq] at hr
    have hbound : decimalValue ds < 2 ^ 64 := by
      cases neg with
      | true =>
        simp only [if_true] at hv
        norm_num at hlo hhi ⊢
        omega
      | false =>
        simp only [Bool.false_eq_true, if_false] at hv
        norm_num at hlo hhi ⊢
        omega
    rw [scanUint_of_readDigits ds 0 _ hr hbound]
    dsimp only
    cases neg with
    | true =>
      simp only [if_true] at hv ⊢
      have hle : decimalValue ds ≤ 2 ^ (64 - 1) := by
        norm_num at hlo hhi ⊢
        omega
      rw [if_pos hle, hv]
    | false =>
      simp only [Bool.false_eq_true, if_false] at hv ⊢
      have hle : decimalValue ds < 2 ^ (64 - 1) := by
        norm_num at hlo hhi ⊢
        omega
      rw [if_pos hle, hv]

theorem atoiCore_ok_iff (s : String) (v : Int) :
    atoiCore s = .ok v ↔ IsIntegerString s v ∧ InIntRange v := by
  unfold atoiCore IsIntegerString
  split
  · rename_i rest hs
    rw [atoiDigits_ok_iff]
    constructor
    · rintro ⟨hne, hdig, hv, hr⟩
      exact ⟨⟨rest, hne, hdig, Or.inr (Or.inr ⟨hs, by simpa using hv⟩)⟩, hr⟩
    · rintro ⟨⟨ds, hne, hdig, h⟩, hr⟩
      rcases h with ⟨h, hv⟩ | ⟨h, hv⟩ | ⟨h, hv⟩
      · exfalso
        rw [hs] at h
        have := hdig '-' (by rw [← h]; exact List.mem_cons_self _ _)
        revert this; decide
      · rw [hs] at h
        simp at h
      · rw [hs] at h
        simp only [List.cons.injEq, true_and] at h
        subst h
        exact ⟨hne, hdig, by simpa using hv, hr⟩
  · rename_i rest hs
    rw [atoiDigits_ok_iff]
    constructor
    · rintro ⟨hne, hdig, hv, hr⟩
      exact ⟨⟨rest, hne, hdig, Or.inr (Or.inl ⟨hs, by simpa using hv⟩)⟩, hr⟩
    · rintro ⟨⟨ds, hne, hdig, h⟩, hr⟩
      rcases h with ⟨h, hv⟩ | ⟨h, hv⟩ | ⟨h, hv⟩
      · exfalso
        rw [hs] at h
        have := hdig '+' (by rw [← h]; exact List.mem_cons_self _ _)
        revert this; decide
      · rw [hs] at h
        simp only [List.cons.injEq, true_and] at h
        subst h
        exact ⟨hne, hdig, by simpa using hv, hr⟩
      · rw [hs] at h
        simp at h
  · rename_i all h1 h2
    rw [atoiDigits_ok_iff]
    constructor
    · rintro ⟨hne, hdig, hv, hr⟩
      exact ⟨⟨s.data, hne, hdig, Or.inl ⟨rfl, by simpa using hv⟩⟩, hr⟩
    · rintro ⟨⟨ds, hne, hdig, h⟩, hr⟩
      rcases h with ⟨h, hv⟩ | ⟨h, hv⟩ | ⟨h, hv⟩
      · rw [h]
        exact ⟨hne, hdig, by simpa using hv, hr⟩
      · exact absurd h (h2 ds)
      · exact absurd h (h1 ds)

/-! ## Query strings -/

theorem upperhex_not_sep (n : Nat) (h : n < 16) : upperhex n ≠ '&' ∧ upperhex n ≠ '=' := by
  interval_cases n <;> decide

theorem escapeByte_not_sep (c : Char) :
    ∀ b ∈ utf8Bytes c, ∀ x ∈ escapeByte b, x ≠ '&' ∧ x ≠ '=' := by
  intro b hb x hx
  have hlt := utf8Bytes_lt c b hb
  unfold escapeByte at hx
  split_ifs at hx with h1 h2
  · simp at hx; subst hx; decide
  · simp at hx
    rcases hx with rfl | rfl | rfl
    · decide
    · exact upperhex_not_sep _ (by omega)
    · exact upperhex_not_sep _ (by omega)
  · simp at hx
    subst hx
    by_cases hc : c.toNat < 128
    · rw [utf8Bytes_ascii c hc] at hb
      simp at hb
      subst hb
      rw [Char.ofNat_toNat]
      constructor
      · intro e; subst e
        exact h1 (by decide)
      · intro e; subst e
        exact h1 (by decide)
    · have := utf8Bytes_high c (by omega) b hb
      rw [shouldEscape_high b this] at h1
      exact absurd rfl h1

theorem QueryEscape_not_sep (s : String) :
    '&' ∉ (QueryEscape s).data ∧ '=' ∉ (QueryEscape s).data := by
  have key : ∀ x ∈ (QueryEscape s).data, x ≠ '&' ∧ x ≠ '=' := by
    intro x hx
    unfold QueryEscape at hx
    simp only [List.mem_flatMap] at hx
    obtain ⟨c, _, b, hb, hx⟩ := hx
    exact escapeByte_not_sep c b hb x hx
  exact ⟨fun h => (key _ h).1 rfl, fun h => (key _ h).2 rfl⟩

theorem dateChars_not_sep (s : String) (h : ∀ c ∈ s.data, isDateChar c) :
    '&' ∉ s.data ∧ '=' ∉ s.data := by
  constructor
  · intro hm
    have := isDateChar_toNat (h _ hm)
    revert this; decide
  · intro hm
    have := isDateChar_toNat (h _ hm)
    revert this; decide

theorem splitOn_ne_nil (sep : Char) (l : List Char) : splitOn sep l ≠ [] := by
  induction l with
  | nil => simp [splitOn]
  | cons c cs ih =>
    unfold splitOn
    split_ifs
    · simp
    · split <;> simp

theorem splitOn_none (sep : Char) (a : List Char) (h : sep ∉ a) : splitOn sep a = [a] := by
  induction a with
  | nil => rfl
  | cons c cs ih =>
    have hc : c ≠ sep := fun e => h (e ▸ List.mem_cons_self _ _)
    have ih2 := ih (fun e => h (List.mem_cons_of_mem _ e))
    simp [splitOn, hc, ih2]

theorem splitOn_append (sep : Char) (a b : List Char) (h : sep ∉ a) :
    splitOn sep (a ++ sep :: b) = a :: splitOn sep b := by
  induction a with
  | nil => simp [splitOn]
  | cons c cs ih =>
    have hc : c ≠ sep := fun e => h (e ▸ List.mem_cons_self _ _)
    have ih2 := ih (fun e => h (List.mem_cons_of_mem _ e))
    simp [splitOn, hc, ih2]

theorem queryOf_String (base q : String) (hn : '?' ∉ base.data) :
    queryOf (URL.String { base := base, RawQuery := q }) = q := by
  unfold queryOf URL.String
  by_cases he : q = ""
  · simp only [he, if_true]
    rw [cutAt_none _ _ hn]
  · simp only [he, if_false]
    have hd : (base ++ "?" ++ q).data = base.data ++ '?' :: q.data := by
      simp [String.data_append]
    rw [hd, cutAt_append _ _ _ hn]

/-- The query string that writes the pairs `kvs`. -/
theorem queryParams_joinAmp (kvs : List (String × String))
    (h : ∀ p ∈ kvs, '&' ∉ p.1.data ∧ '=' ∉ p.1.data ∧ '&' ∉ p.2.data) :
    queryParams (joinAmp (kvs.map fun p => p.1 ++ "=" ++ p.2)) = kvs := by
  have seg : ∀ p : String × String, '&' ∉ p.1.data ∧ '=' ∉ p.1.data ∧ '&' ∉ p.2.data →
      (p.1 ++ "=" ++ p.2).data = p.1.data ++ '=' :: p.2.data
      ∧ '&' ∉ (p.1.data ++ '=' :: p.2.data)
      ∧ (p.1.data ++ '=' :: p.2.data).isEmpty = false
      ∧ cutAt '=' (p.1.data ++ '=' :: p.2.data) = (p.1.data, some p.2.data) := by
    intro p hp
    refine ⟨by simp [String.data_append], ?_, ?_, cutAt_append _ _ _ hp.2.1⟩
    · simp only [List.mem_append, List.mem_cons, not_or]
      exact ⟨hp.1, by decide, hp.2.2⟩
    · cases p.1.data <;> rfl
  induction kvs with
  | nil => rfl
  | cons p rest ih =>
    obtain ⟨s1, s2, s3, s4⟩ := seg p (h p (List.mem_cons_self _ _))
    have ih2 := ih (fun q hq => h q (List.mem_cons_of_mem _ hq))
    cases rest with
    | nil =>
      simp only [List.map_cons, List.map_nil, joinAmp]
      unfold queryParams
      rw [s1, splitOn_none _ _ s2]
      simp [s3, s4]
    | cons q rest2 =>
      simp only [List.map_cons, joinAmp] at ih2 ⊢
      unfold queryParams at ih2 ⊢
      have hd : (p.1 ++ "=" ++ p.2 ++ "&" ++
          joinAmp ((q.1 ++ "=" ++ q.2) :: List.map (fun p => p.1 ++ "=" ++ p.2) rest2)).data
          = (p.1.data ++ '=' :: p.2.data) ++ '&' ::
            (joinAmp ((q.1 ++ "=" ++ q.2) :: List.map (fun p => p.1 ++ "=" ++ p.2) rest2)).data := by
        simp [String.data_append]
      rw [hd, splitOn_append _ _ _ s2]
      simp only [List.filter_cons, s3, Bool.not_false, if_true, List.map_cons, s4]
      rw [ih2]
      simp

/-- The three outcomes of `New` in terms of its two steps. -/
theorem New_cases {σ : Type} (lib : Lib) (tr : Transport σ)
    (mail pw : String) (sys : Sys σ) :
    ((getRefreshToken lib tr ⟨""⟩ mail pw sys).1.2 ≠ none →
        (New lib tr mail pw sys).1 = (none, none))
    ∧ ((getRefreshToken lib tr ⟨""⟩ mail pw sys).1.2 = none →
        (getIDToken lib tr ⟨""⟩ (getRefreshToken lib tr ⟨""⟩ mail pw sys).1.1
          (getRefreshToken lib tr ⟨""⟩ mail pw sys).2).1.2 ≠ none →
        (New lib tr mail pw sys).1 = (none, none))
    ∧ (∀ c : clientImpl, (New lib tr mail pw sys).1.1 = some c →
        (getRefreshToken lib tr ⟨""⟩ mail pw sys).1.2 = none
        ∧ (getIDToken lib tr ⟨""⟩ (getRefreshToken lib tr ⟨""⟩ mail pw sys).1.1
            (getRefreshToken lib tr ⟨""⟩ mail pw sys).2).1.2 = none
        ∧ c.idToken = (getIDToken lib tr ⟨""⟩ (getRefreshToken lib tr ⟨""⟩ mail pw sys).1.1
            (getRefreshToken lib tr ⟨""⟩ mail pw sys).2).1.1
        ∧ (New lib tr mail pw sys).1.2 = none) := by
  rcases h1 : getRefreshToken lib tr ⟨""⟩ mail pw sys with ⟨⟨tok, e1⟩, s1⟩
  cases e1 with
  | some e =>
    have hN : New lib tr mail pw sys = ((none, none), s1) := by
      unfold New
      simp only [h1]
    simp [hN]
  | none =>
    rcases h2 : getIDToken lib tr ⟨""⟩ tok s1 with ⟨⟨idt, e2⟩, s2⟩
    cases e2 with
    | some e =>
      have hN : New lib tr mail pw sys = ((none, none), s2) := by
        unfold New
        simp only [h1, h2]
      simp [hN, h2]
    | none =>
      have hN : New lib tr mail pw sys = ((some ⟨idt⟩, none), s2) := by
        unfold New
        simp only [h1, h2]
      simp only [hN, h2]
      refine ⟨by simp, by simp, ?_⟩
      intro c hc
      simp only [Option.some.injEq] at hc
      simp [← hc]

theorem getRefreshToken_ok {σ : Type} (lib : Lib) (tr : Transport σ) (c : clientImpl)
    (mail pw : String) (sys : Sys σ) (b : String) (resp : Response) (body : String)
    (rt : refreshTokenResponse)
    (hm : lib.jsonMarshal { MailAddress := mail, Password := pw } = .ok b)
    (hd : (tr.Do sys.net (authUserRequest b)).1 = .ok resp)
    (hs : resp.StatusCode = 200) (hb : resp.Body = .ok body)
    (hu : lib.unmarshalRefreshToken body = .ok rt) :
    getRefreshToken lib tr c mail pw sys
      = ((rt.RefreshToken, none),
          { net := (tr.Do sys.net (authUserRequest b)).2,
            sent := sys.sent ++ [authUserRequest b],
            bodyReads := sys.bodyReads + 1, stdout := sys.stdout }) := by
  rw [getRefreshToken_run lib tr c mail pw sys b hm]
  dsimp only
  rw [hd]
  dsimp only
  rw [if_neg (by simpa using hs), hb]
  dsimp only
  rw [hu]

theorem getIDToken_ok {σ : Type} (lib : Lib) (tr : Transport σ) (c : clientImpl)
    (t : String) (sys : Sys σ) (resp : Response) (body : String) (it : idTokenResponse)
    (hd : (tr.Do sys.net (authRefreshRequest t)).1 = .ok resp)
    (hs : resp.StatusCode = 200) (hb : resp.Body = .ok body)
    (hu : lib.unmarshalIDToken body = .ok it) :
    (getIDToken lib tr c t sys).1 = (it.IDToken, none) := by
  rw [getIDToken_run lib tr c t sys]
  dsimp only
  rw [hd]
  dsimp only
  rw [if_neg (by simpa using hs), hb]
  dsimp only
  rw [hu]

theorem New_ok {σ : Type} (lib : Lib) (tr : Transport σ) (mail pw : String) (sys : Sys σ)
    (b : String) (resp1 : Response) (body1 : String) (rt : refreshTokenResponse)
    (resp2 : Response) (body2 : String) (it : idTokenResponse)
    (hm : lib.jsonMarshal { MailAddress := mail, Password := pw } = .ok b)
    (hd1 : (tr.Do sys.net (authUserRequest b)).1 = .ok resp1)
    (hs1 : resp1.StatusCode = 200) (hb1 : resp1.Body = .ok body1)
    (hu1 : lib.unmarshalRefreshToken body1 = .ok rt)
    (hd2 : (tr.Do (tr.Do sys.net (authUserRequest b)).2
      (authRefreshRequest rt.RefreshToken)).1 = .ok resp2)
    (hs2 : resp2.StatusCode = 200) (hb2 : resp2.Body = .ok body2)
    (hu2 : lib.unmarshalIDToken body2 = .ok it) :
    (New lib tr mail pw sys).1 = (some { idToken := it.IDToken }, none) := by
  have h1 := getRefreshToken_ok lib tr ⟨""⟩ mail pw sys b resp1 body1 rt hm hd1 hs1 hb1 hu1
  have h2 := getIDToken_ok lib tr ⟨""⟩ rt.RefreshToken
    { net := (tr.Do sys.net (authUserRequest b)).2, sent := sys.sent ++ [authUserRequest b],
      bodyReads := sys.bodyReads + 1, stdout := sys.stdout } resp2 body2 it hd2 hs2 hb2 hu2
  unfold New
  simp only [h1]
  rcases h3 : getIDToken lib tr ⟨""⟩ rt.RefreshToken
    { net := (tr.Do sys.net (authUserRequest b)).2, sent := sys.sent ++ [authUserRequest b],
      bodyReads := sys.bodyReads + 1, stdout := sys.stdout } with ⟨⟨idt, e2⟩, s2⟩
  rw [h3] at h2
  simp only [Prod.mk.injEq] at h2
  obtain ⟨rfl, rfl⟩ := h2
  rfl

theorem getRefreshToken_ok_inv {σ : Type} (lib : Lib) (tr : Transport σ) (c : clientImpl)
    (mail pw : String) (sys : Sys σ)
    (h : (getRefreshToken lib tr c mail pw sys).1.2 = none) :
    ∃ (b : String) (resp : Response) (body : String) (rt : refreshTokenResponse),
      lib.jsonMarshal { MailAddress := mail, Password := pw } = .ok b
      ∧ (tr.Do sys.net (authUserRequest b)).1 = .ok resp
      ∧ resp.StatusCode = 200 ∧ resp.Body = .ok body
      ∧ lib.unmarshalRefreshToken body = .ok rt
      ∧ (getRefreshToken lib tr c mail pw sys).1.1 = rt.RefreshToken
      ∧ (getRefreshToken lib tr c mail pw sys).2.net = (tr.Do sys.net (authUserRequest b)).2 := by
  cases hm : lib.jsonMarshal { MailAddress := mail, Password := pw } with
  | error e =>
    rw [getRefreshToken_marshal_error lib tr c mail pw sys e hm] at h
    exact absurd h (by simp)
  | ok b =>
    rw [getRefreshToken_run lib tr c mail pw sys b hm] at h ⊢
    dsimp only at h ⊢
    cases hd : (tr.Do sys.net (authUserRequest b)).1 with
    | error e =>
      rw [hd] at h
      exact absurd h (by simp)
    | ok resp =>
      rw [hd] at h
      dsimp only at h ⊢
      by_cases hs : resp.StatusCode = 200
      · rw [if_neg (by simpa using hs)] at h ⊢
        cases hb : resp.Body with
        | error e =>
          rw [hb] at h
          exact absurd h (by simp)
        | ok body =>
          rw [hb] at h
          dsimp only at h ⊢
          cases hu : lib.unmarshalRefreshToken body with
          | error e =>
            rw [hu] at h
            exact absurd h (by simp)
          | ok rt =>
            rw [hu] at h
            exact ⟨b, resp, body, rt, rfl, hd, hs, hb, hu, rfl, rfl⟩
      · rw [if_pos hs] at h
        exact absurd h (by simp)

theorem getIDToken_ok_inv {σ : Type} (lib : Lib) (tr : Transport σ) (c : clientImpl)
    (t : String) (sys : Sys σ)
    (h : (getIDToken lib tr c t sys).1.2 = none) :
    ∃ (resp : Response) (body : String) (it : idTokenResponse),
      (tr.Do sys.net (authRefreshRequest t)).1 = .ok resp
      ∧ resp.StatusCode = 200 ∧ resp.Body = .ok body
      ∧ lib.unmarshalIDToken body = .ok it
      ∧ (getIDToken lib tr c t sys).1.1 = it.IDToken := by
  rw [getIDToken_run lib tr c t sys] at h ⊢
  dsimp only at h ⊢
  cases hd : (tr.Do sys.net (authRefreshRequest t)).1 with
  | error e =>
    rw [hd] at h
    exact absurd h (by simp)
  | ok resp =>
    rw [hd] at h
    dsimp only at h ⊢
    by_cases hs : resp.StatusCode = 200
    · rw [if_neg (by simpa using hs)] at h ⊢
      cases hb : resp.Body with
      | error e =>
        rw [hb] at h
        exact absurd h (by simp)
      | ok body =>
        rw [hb] at h
        dsimp only at h ⊢
        cases hu : lib.unmarshalIDToken body with
        | error e =>
          rw [hu] at h
          exact absurd h (by simp)
        | ok it =>
          rw [hu] at h
          exact ⟨resp, body, it, rfl, hs, hb, hu, rfl⟩
    · rw [if_pos hs] at h
      exact absurd h (by simp)

/-! ## The request of `TradingCalendar` -/

theorem TradingCalendar_sent {σ : Type} (lib : Lib) (tr : Transport σ) (c : clientImpl)
    (param : TradingCalendarParam) (sys : Sys σ) :
    (TradingCalendar lib tr c param sys).2.sent = sys.sent ++ [calendarRequest c param] := by
  rw [TradingCalendar_run lib tr c param sys]
  dsimp only
  split
  · rfl
  · split_ifs
    · rfl
    · split
      · rfl
      · split <;> rfl

theorem queryOf_calendar (c : clientImpl) (param : TradingCalendarParam) :
    queryOf (calendarRequest c param).URL = calendarQuery param := by
  unfold calendarRequest
  exact queryOf_String _ _ (by decide)

theorem calendarQuery_eq_joinAmp (param : TradingCalendarParam) :
    calendarQuery param = joinAmp ((calendarPairs param).map fun p => p.1 ++ "=" ++ p.2) := by
  obtain ⟨hd, f, t⟩ := param
  cases hd <;> cases f <;> cases t <;>
    simp only [calendarQuery, calendarPairs, List.map_cons, List.map_nil, joinAmp] <;>
    apply String.ext <;> simp [String.data_append]

theorem queryParams_calendar (param : TradingCalendarParam) :
    queryParams (calendarQuery param) = calendarPairs param := by
  rw [calendarQuery_eq_joinAmp]
  apply queryParams_joinAmp
  obtain ⟨hd, f, t⟩ := param
  have k1 : '&' ∉ "from".data ∧ '=' ∉ "from".data := by decide
  have k2 : '&' ∉ "to".data ∧ '=' ∉ "to".data := by decide
  have k3 : '&' ∉ "holidaydivision".data ∧ '=' ∉ "holidaydivision".data := by decide
  have hI : ∀ d, '&' ∉ (Itoa d).data := fun d => (dateChars_not_sep _ (Itoa_isDateChar d)).1
  have hF : ∀ x : Time, '&' ∉ x.Format.data := fun x =>
    (dateChars_not_sep _ (Format_isDateChar x)).1
  intro p hp
  cases hd <;> cases f <;> cases t <;> simp only [calendarPairs] at hp <;>
    simp only [List.mem_cons, List.mem_singleton, List.not_mem_nil, or_false] at hp
  all_goals
    rcases hp with rfl | rfl | rfl <;>
      first
        | exact ⟨k1.1, k1.2, hF _⟩
        | exact ⟨k2.1, k2.2, hF _⟩
        | exact ⟨k3.1, k3.2, hI _⟩

theorem paramsNamed_calendar (key : String) (c : clientImpl) (param : TradingCalendarParam) :
    paramsNamed key (calendarRequest c param).URL
      = (calendarPairs param).filter (fun p => p.1 == key) := by
  unfold paramsNamed
  rw [queryOf_calendar, queryParams_calendar]

/-! ## The loop over the decoded elements -/

theorem timeParse_ok (lib : Lib) {s : String} {t : Time} (h : IsDateString s t) :
    timeParse lib s = .ok t := by
  unfold timeParse
  rw [parseDate_of_IsDateString h]

theorem timeParse_error (lib : Lib) {s : String} (h : ¬ ∃ t, IsDateString s t) :
    timeParse lib s = .error (lib.timeParseError s) := by
  unfold timeParse
  cases hp : parseDate s with
  | none => rfl
  | some t => exact absurd ⟨t, IsDateString_of_parseDate hp⟩ h

theorem Atoi_ok (lib : Lib) {s : String} {v : Int} (h : IsIntegerString s v)
    (hr : InIntRange v) : Atoi lib s = .ok v := by
  unfold Atoi
  rw [(atoiCore_ok_iff s v).mpr ⟨h, hr⟩]

theorem Atoi_error (lib : Lib) {s : String}
    (h : ¬ ∃ v, IsIntegerString s v ∧ InIntRange v) : ∃ e, Atoi lib s = .error e := by
  unfold Atoi
  cases hc : atoiCore s with
  | ok v => exact absurd ⟨v, (atoiCore_ok_iff s v).mp hc⟩ h
  | error k =>
    cases k
    · exact ⟨_, rfl⟩
    · exact ⟨_, rfl⟩

theorem parseItems_ok (lib : Lib) (elems : List tradingCalendarItem)
    (entries acc : List DateHolidayDivision) (h : List.Forall₂ ItemParses elems entries) :
    parseItems lib acc elems = (some (acc ++ entries), none) := by
  induction h generalizing acc with
  | nil => simp [parseItems]
  | cons hx _ ih =>
    obtain ⟨h1, h2, h3⟩ := hx
    unfold parseItems
    rw [timeParse_ok lib h1, Atoi_ok lib h2 h3]
    dsimp only
    rw [ih]
    simp

theorem parseItems_append (lib : Lib) (pre : List tradingCalendarItem)
    (es acc : List DateHolidayDivision) (rest : List tradingCalendarItem)
    (h : List.Forall₂ ItemParses pre es) :
    parseItems lib acc (pre ++ rest) = parseItems lib (acc ++ es) rest := by
  induction h generalizing acc with
  | nil => simp
  | cons hx _ ih =>
    obtain ⟨h1, h2, h3⟩ := hx
    rw [List.cons_append]
    conv_lhs => unfold parseItems
    rw [timeParse_ok lib h1, Atoi_ok lib h2 h3]
    dsimp only
    rw [ih]
    simp

theorem parseItems_offending (lib : Lib) (x : tradingCalendarItem)
    (hx : ¬ ∃ e, ItemParses x e) :
    ∃ msg : String,
      (∀ (acc : List DateHolidayDivision) (post : List tradingCalendarItem),
        parseItems lib acc (x :: post) = (none, some msg))
      ∧ ((¬ (∃ t, IsDateString x.Date t) ∧ Contains msg x.Date)
        ∨ ((∃ t, IsDateString x.Date t) ∧ Contains msg x.HolidayDivision)) := by
  by_cases hdate : ∃ t, IsDateString x.Date t
  · obtain ⟨t, ht⟩ := hdate
    have hint : ¬ ∃ v, IsIntegerString x.HolidayDivision v ∧ InIntRange v := by
      rintro ⟨v, hv, hr⟩
      exact hx ⟨⟨t, v⟩, ht, hv, hr⟩
    obtain ⟨e, he⟩ := Atoi_error lib hint
    refine ⟨"TradingCalendar strconv.Atoi failed " ++ x.HolidayDivision ++ ": " ++ e, ?_,
      Or.inr ⟨⟨t, ht⟩, ?_⟩⟩
    · intro acc post
      unfold parseItems
      rw [timeParse_ok lib ht, he]
    · exact ⟨("TradingCalendar strconv.Atoi failed ").data, (": " ++ e).data, by
        simp [String.data_append]⟩
  · refine ⟨"TradingCalendar time.Parse failed " ++ x.Date ++ ": " ++ lib.timeParseError x.Date,
      ?_, Or.inl ⟨hdate, ?_⟩⟩
    · intro acc post
      unfold parseItems
      rw [timeParse_error lib hdate]
    · exact ⟨("TradingCalendar time.Parse failed ").data,
        (": " ++ lib.timeParseError x.Date).data, by simp [String.data_append]⟩

theorem first_offending (elems : List tradingCalendarItem)
    (h : ∃ x ∈ elems, ¬ ∃ e, ItemParses x e) :
    ∃ (pre : List tradingCalendarItem) (x : tradingCalendarItem)
      (post : List tradingCalendarItem) (es : List DateHolidayDivision),
      elems = pre ++ x :: post ∧ List.Forall₂ ItemParses pre es ∧ ¬ ∃ e, ItemParses x e := by
  induction elems with
  | nil =>
    obtain ⟨x, hx, _⟩ := h
    exact absurd hx (List.not_mem_nil x)
  | cons a rest ih =>
    by_cases ha : ∃ e, ItemParses a e
    · obtain ⟨e, he⟩ := ha
      obtain ⟨x, hx, hbad⟩ := h
      have hx2 : x ∈ rest := by
        rcases List.mem_cons.mp hx with rfl | hm
        · exact absurd ⟨e, he⟩ hbad
        · exact hm
      obtain ⟨pre, y, post, es, h1, h2, h3⟩ := ih ⟨x, hx2, hbad⟩
      exact ⟨a :: pre, y, post, e :: es, by rw [h1]; rfl, List.Forall₂.cons he h2, h3⟩
    · exact ⟨[], a, rest, [], rfl, List.Forall₂.nil, ha⟩

theorem TradingCalendar_decoded {σ : Type} (lib : Lib) (tr : Transport σ) (c : clientImpl)
    (param : TradingCalendarParam) (sys : Sys σ) (resp : Response) (body : String)
    (result : tradingCalendarResponse)
    (hd : (tr.Do sys.net (calendarRequest c param)).1 = .ok resp)
    (hs : resp.StatusCode = 200) (hb : resp.Body = .ok body)
    (hu : lib.unmarshalTradingCalendar body = .ok result) :
    (TradingCalendar lib tr c param sys).1 = parseItems lib [] result.TradingCalendar := by
  rw [TradingCalendar_run lib tr c param sys]
  dsimp only
  rw [hd]
  dsimp only
  rw [if_neg (by simpa using hs), hb]
  dsimp only
  rw [hu]

theorem sample_date : IsDateString "2024-01-04" ⟨2024, 1, 4⟩ :=
  ⟨2, 0, 2, 4, 0, 1, 0, 4, by decide, by decide, by decide, by decide, by decide, by decide,
    by decide, by decide, by decide, by decide, by decide, by decide, by decide, by decide⟩

theorem sample_one : IsIntegerString "1" 1 :=
  ⟨['1'], by decide, by decide, Or.inl ⟨rfl, rfl⟩⟩

theorem sample_big : IsIntegerString "9223372036854775808" 9223372036854775808 :=
  ⟨"9223372036854775808".data, by decide, by decide, Or.inl ⟨rfl, by rfl⟩⟩

theorem sample_not_date : ¬ ∃ t, IsDateString "x" t := by
  rintro ⟨t, ht⟩
  have := parseDate_of_IsDateString ht
  rw [show parseDate "x" = none from rfl] at this
  exact absurd this (by simp)

theorem sample_range : InIntRange BusinessDay := by
  unfold InIntRange intSize BusinessDay
  norm_num

theorem not_Contains_of_not_mem (s sub : String) (c : Char) (hc : c ∈ sub.data)
    (hn : c ∉ s.data) : ¬ Contains s sub := by
  rintro ⟨a, b, h⟩
  apply hn
  rw [← h]
  simp [hc]

theorem sample_message_without_x :
    ¬ Contains "TradingCalendar strconv.Atoi failed 9223372036854775808: strconv.Atoi: parsing \"9223372036854775808\": value out of range" "x" :=
  not_Contains_of_not_mem _ _ 'x' (by decide) (by decide)

/-! ## Authentication: `New` -/

/-- C1 (the code at a failing input): the token endpoint answers 401, so
`getRefreshToken` fails with an error naming the status, and `New` returns a
nil client together with a nil error. -/
theorem New_swallows_auth_failure :
    (getRefreshToken sampleLib scripted ⟨""⟩ "user@example.com" "secret"
        (freshSys [unauthorized])).1
      = ("", some "getRefreshToken got non 200 HTTP status code 401: 401 Unauthorized")
    ∧ (New sampleLib scripted "user@example.com" "secret" (freshSys [unauthorized])).1
      = (none, none) := by
  constructor <;> rfl

/-- C2: whatever the transport does, when `getRefreshToken` fails, or it
succeeds and `getIDToken` fails, `New` returns a nil client and a nil error;
`New` returns a client only when both succeeded, with a nil error, and the
client then stores exactly the string `getIDToken` returned. -/
theorem New_nil_client_nil_error {σ : Type} (lib : Lib) (tr : Transport σ)
    (mail pw : String) (sys : Sys σ) :
    ((getRefreshToken lib tr ⟨""⟩ mail pw sys).1.2 ≠ none →
        (New lib tr mail pw sys).1 = (none, none))
    ∧ ((getRefreshToken lib tr ⟨""⟩ mail pw sys).1.2 = none →
        (getIDToken lib tr ⟨""⟩ (getRefreshToken lib tr ⟨""⟩ mail pw sys).1.1
          (getRefreshToken lib tr ⟨""⟩ mail pw sys).2).1.2 ≠ none →
        (New lib tr mail pw sys).1 = (none, none))
    ∧ (∀ c : clientImpl, (New lib tr mail pw sys).1.1 = some c →
        (getRefreshToken lib tr ⟨""⟩ mail pw sys).1.2 = none
        ∧ (getIDToken lib tr ⟨""⟩ (getRefreshToken lib tr ⟨""⟩ mail pw sys).1.1
            (getRefreshToken lib tr ⟨""⟩ mail pw sys).2).1.2 = none
        ∧ c.idToken = (getIDToken lib tr ⟨""⟩ (getRefreshToken lib tr ⟨""⟩ mail pw sys).1.1
            (getRefreshToken lib tr ⟨""⟩ mail pw sys).2).1.1
        ∧ (New lib tr mail pw sys).1.2 = none) :=
  New_cases lib tr mail pw sys

theorem paramsNamed_authRefresh (t : String) :
    paramsNamed "refreshtoken" (authRefreshRequest t).URL = [("refreshtoken", QueryEscape t)] := by
  have hn : '?' ∉ (BASE_URL ++ "/token/auth_refresh").data := by decide
  have hq := queryOf_String (BASE_URL ++ "/token/auth_refresh")
    ("refreshtoken=" ++ QueryEscape t) hn
  rw [String_refresh] at hq
  unfold paramsNamed authRefreshRequest
  simp only [hq]
  have hp := queryParams_joinAmp [("refreshtoken", QueryEscape t)] (by
    intro p hp
    simp only [List.mem_singleton] at hp
    subst hp
    exact ⟨(by decide : '&' ∉ "refreshtoken".data), (by decide : '=' ∉ "refreshtoken".data),
      (QueryEscape_not_sep t).1⟩)
  have e : "refreshtoken" ++ "=" = "refreshtoken=" := by decide
  simp only [List.map_cons, List.map_nil, joinAmp, e] at hp
  rw [hp]
  rfl

/-- C3: the requests `New` hands to the transport, the credentials having
been marshalled to `b`. When step 1 fails, for whatever reason (transport
error, status other than 200, unreadable or undecodable body), `New` sends
exactly one request, the POST to `/token/auth_user`, and none to
`/token/auth_refresh`. When step 1 returns a refresh token, `New` sends
exactly two: that POST, then the POST to `/token/auth_refresh` whose only
`refreshtoken` parameter is the query-escaped token. -/
theorem New_requests {σ : Type} (lib : Lib) (tr : Transport σ) (mail pw : String)
    (sys : Sys σ) (b : String)
    (hm : lib.jsonMarshal { MailAddress := mail, Password := pw } = .ok b) :
    ((getRefreshToken lib tr ⟨""⟩ mail pw sys).1.2 ≠ none →
        (New lib tr mail pw sys).2.sent = sys.sent ++ [authUserRequest b])
    ∧ ((getRefreshToken lib tr ⟨""⟩ mail pw sys).1.2 = none →
        (New lib tr mail pw sys).2.sent = sys.sent ++ [authUserRequest b,
          authRefreshRequest (getRefreshToken lib tr ⟨""⟩ mail pw sys).1.1])
    ∧ (authUserRequest b).URL = BASE_URL ++ "/token/auth_user"
    ∧ (authUserRequest b).URL ≠ BASE_URL ++ "/token/auth_refresh"
    ∧ (∀ t : String, (authRefreshRequest t).Method = "POST"
        ∧ (authRefreshRequest t).URL
            = BASE_URL ++ "/token/auth_refresh" ++ "?" ++ ("refreshtoken=" ++ QueryEscape t)
        ∧ paramsNamed "refreshtoken" (authRefreshRequest t).URL
            = [("refreshtoken", QueryEscape t)]) := by
  have hs1 : (getRefreshToken lib tr ⟨""⟩ mail pw sys).2.sent
      = sys.sent ++ [authUserRequest b] := by
    rw [getRefreshToken_run lib tr ⟨""⟩ mail pw sys b hm]
    dsimp only
    split
    · rfl
    · split_ifs
      · rfl
      · split
        · rfl
        · split <;> rfl
  have hs2 : ∀ (t : String) (s : Sys σ),
      (getIDToken lib tr ⟨""⟩ t s).2.sent = s.sent ++ [authRefreshRequest t] := by
    intro t s
    rw [getIDToken_run lib tr ⟨""⟩ t s]
    dsimp only
    split
    · rfl
    · split_ifs
      · rfl
      · split
        · rfl
        · split <;> rfl
  refine ⟨?_, ?_, rfl,
    (by decide : BASE_URL ++ "/token/auth_user" ≠ BASE_URL ++ "/token/auth_refresh"), fun t => ⟨rfl, rfl, paramsNamed_authRefresh t⟩⟩
  · intro hf
    rcases h1 : getRefreshToken lib tr ⟨""⟩ mail pw sys with ⟨⟨tok, e1⟩, s1⟩
    rw [h1] at hs1 hf
    cases e1 with
    | none => exact absurd rfl hf
    | some e =>
      have hN : New lib tr mail pw sys = ((none, none), s1) := by
        unfold New
        simp only [h1]
      rw [hN]
      exact hs1
  · intro hok
    rcases h1 : getRefreshToken lib tr ⟨""⟩ mail pw sys with ⟨⟨tok, e1⟩, s1⟩
    rw [h1] at hs1 hok
    dsimp only at hok hs1
    subst hok
    have h2s := hs2 tok s1
    rcases h2 : getIDToken lib tr ⟨""⟩ tok s1 with ⟨⟨idt, e2⟩, s2⟩
    rw [h2] at h2s
    dsimp only at h2s
    have hN : (New lib tr mail pw sys).2 = s2 := by
      unfold New
      simp only [h1, h2]
      cases e2 <;> rfl
    rw [hN, h2s, hs1]
    simp

/-- C3, at a concrete input: the token endpoint answers 401 and `New` has sent
one request, to `/token/auth_user`. -/
theorem New_requests_witness :
    sampleLib.jsonMarshal { MailAddress := "user@example.com", Password := "secret" }
      = .ok "\x7b\"mailaddress\":\"user@example.com\",\"password\":\"secret\"\x7d"
    ∧ (New sampleLib scripted "user@example.com" "secret" (freshSys [unauthorized])).2.sent
      = [] ++ [authUserRequest
          "\x7b\"mailaddress\":\"user@example.com\",\"password\":\"secret\"\x7d"] :=
  ⟨rfl, (New_requests sampleLib scripted "user@example.com" "secret" (freshSys [unauthorized])
    _ rfl).1 (by decide)⟩

/-- C5 (counterexample): both token calls are answered with status 200 and a
body that decodes, the second being the JSON object without an `idToken`
field; `New` returns a client and a nil error, and the ID token stored on the
client is the empty string. -/
theorem New_accepts_empty_idToken :
    sampleLib.unmarshalRefreshToken "\x7b\"refreshToken\":\"rt\"\x7d" = .ok ⟨"rt"⟩
    ∧ sampleLib.unmarshalIDToken "\x7b\x7d" = .ok ⟨""⟩
    ∧ (New sampleLib scripted "user@example.com" "secret"
        (freshSys [ok200 "\x7b\"refreshToken\":\"rt\"\x7d", ok200 "\x7b\x7d"])).1
      = (some { idToken := "" }, none) := by
  refine ⟨rfl, rfl, rfl⟩

/-- C5 (amended): whenever both token calls are answered with status 200 and
bodies that are read and decoded, the second request carrying the refresh
token decoded from the first answer, `New` returns a client and a nil error,
and the ID token stored on the client is exactly the `IDToken` field decoded
from the second answer, empty or not (a body without the `refreshToken` or
the `idToken` field decodes to the empty string and counts as success).
Conversely `New` returns a client only after such answers, and the stored
token is non-empty exactly when the decoded field is. -/
theorem New_idToken_is_decoded_field {σ : Type} (lib : Lib) (tr : Transport σ)
    (mail pw : String) (sys : Sys σ) :
    (∀ (b : String) (resp1 : Response) (body1 : String) (rt : refreshTokenResponse)
        (resp2 : Response) (body2 : String) (it : idTokenResponse),
        lib.jsonMarshal { MailAddress := mail, Password := pw } = .ok b →
        (tr.Do sys.net (authUserRequest b)).1 = .ok resp1 →
        resp1.StatusCode = 200 → resp1.Body = .ok body1 →
        lib.unmarshalRefreshToken body1 = .ok rt →
        (tr.Do (tr.Do sys.net (authUserRequest b)).2
          (authRefreshRequest rt.RefreshToken)).1 = .ok resp2 →
        resp2.StatusCode = 200 → resp2.Body = .ok body2 →
        lib.unmarshalIDToken body2 = .ok it →
        (New lib tr mail pw sys).1 = (some { idToken := it.IDToken }, none))
    ∧ (∀ c : clientImpl, (New lib tr mail pw sys).1.1 = some c →
        ∃ (b : String) (resp1 : Response) (body1 : String) (rt : refreshTokenResponse)
          (resp2 : Response) (body2 : String) (it : idTokenResponse),
          lib.jsonMarshal { MailAddress := mail, Password := pw } = .ok b
          ∧ (tr.Do sys.net (authUserRequest b)).1 = .ok resp1
          ∧ resp1.StatusCode = 200 ∧ resp1.Body = .ok body1
          ∧ lib.unmarshalRefreshToken body1 = .ok rt
          ∧ (tr.Do (tr.Do sys.net (authUserRequest b)).2
              (authRefreshRequest rt.RefreshToken)).1 = .ok resp2
          ∧ resp2.StatusCode = 200 ∧ resp2.Body = .ok body2
          ∧ lib.unmarshalIDToken body2 = .ok it
          ∧ c.idToken = it.IDToken
          ∧ (c.idToken ≠ "" ↔ it.IDToken ≠ "")) := by
  constructor
  · intro b resp1 body1 rt resp2 body2 it hm hd1 hs1 hb1 hu1 hd2 hs2 hb2 hu2
    exact New_ok lib tr mail pw sys b resp1 body1 rt resp2 body2 it hm hd1 hs1 hb1 hu1
      hd2 hs2 hb2 hu2
  · intro c h
    obtain ⟨h1, h2, h3, -⟩ := (New_cases lib tr mail pw sys).2.2 c h
    obtain ⟨b, resp1, body1, rt, hm, hd1, hs1, hb1, hu1, ht, hn⟩ :=
      getRefreshToken_ok_inv lib tr ⟨""⟩ mail pw sys h1
    obtain ⟨resp2, body2, it, hd2, hs2, hb2, hu2, hi⟩ :=
      getIDToken_ok_inv lib tr ⟨""⟩ _ _ h2
    rw [ht, hn] at hd2
    rw [hi] at h3
    exact ⟨b, resp1, body1, rt, resp2, body2, it, hm, hd1, hs1, hb1, hu1, hd2, hs2, hb2,
      hu2, h3, by rw [h3]⟩

/-- C5 (amended), at a concrete input: the first answer is 200 with the body
`\x7b\x7d`, which has no `refreshToken` field, the second is 200 with the body
`\x7b"idToken":"id"\x7d`; `New` returns a client that stores `id`. -/
theorem New_idToken_is_decoded_field_witness :
    (sampleLib.jsonMarshal { MailAddress := "user@example.com", Password := "secret" }
        = .ok "\x7b\"mailaddress\":\"user@example.com\",\"password\":\"secret\"\x7d"
      ∧ sampleLib.unmarshalRefreshToken "\x7b\x7d" = .ok ⟨""⟩
      ∧ sampleLib.unmarshalIDToken "\x7b\"idToken\":\"id\"\x7d" = .ok ⟨"id"⟩)
    ∧ (New sampleLib scripted "user@example.com" "secret"
        (freshSys [ok200 "\x7b\x7d", ok200 "\x7b\"idToken\":\"id\"\x7d"])).1
      = (some { idToken := "id" }, none) :=
  ⟨⟨rfl, rfl, rfl⟩,
    (New_idToken_is_decoded_field sampleLib scripted "user@example.com" "secret"
      (freshSys [ok200 "\x7b\x7d", ok200 "\x7b\"idToken\":\"id\"\x7d"])).1
      _ { StatusCode := 200, Status := "200 OK", Body := .ok "\x7b\x7d" } _ ⟨""⟩
      { StatusCode := 200, Status := "200 OK", Body := .ok "\x7b\"idToken\":\"id\"\x7d" }
      _ ⟨"id"⟩ rfl rfl rfl rfl rfl rfl rfl rfl rfl⟩

/-- C4: a response whose status code is not 200 ends each of the three calls
with the zero result and an error whose text is the name of the call, the
decimal status code and the status text; the text holds the code and the
status text, no body was read, and neither the body nor a decoder has a part
in the result. -/
theorem non200_is_error {σ : Type} (lib : Lib) (tr : Transport σ) (c : clientImpl)
    (sys : Sys σ) (resp : Response) (hs : resp.StatusCode ≠ 200) :
    (∀ (mail pw b : String),
        lib.jsonMarshal { MailAddress := mail, Password := pw } = .ok b →
        (tr.Do sys.net (authUserRequest b)).1 = .ok resp →
        (getRefreshToken lib tr c mail pw sys).1
            = ("", some ("getRefreshToken got non 200 HTTP status code "
                ++ Itoa resp.StatusCode ++ ": " ++ resp.Status))
          ∧ (getRefreshToken lib tr c mail pw sys).2.bodyReads = sys.bodyReads)
    ∧ (∀ (t : String),
        (tr.Do sys.net (authRefreshRequest t)).1 = .ok resp →
        (getIDToken lib tr c t sys).1
            = ("", some ("getIDToken got non 200 HTTP status code "
                ++ Itoa resp.StatusCode ++ ": " ++ resp.Status))
          ∧ (getIDToken lib tr c t sys).2.bodyReads = sys.bodyReads)
    ∧ (∀ (param : TradingCalendarParam),
        (tr.Do sys.net (calendarRequest c param)).1 = .ok resp →
        (TradingCalendar lib tr c param sys).1
            = (none, some ("TradingCalendar got non 200 HTTP status code "
                ++ Itoa resp.StatusCode ++ ": " ++ resp.Status))
          ∧ (TradingCalendar lib tr c param sys).2.bodyReads = sys.bodyReads)
    ∧ (∀ name : String,
        Contains (name ++ Itoa resp.StatusCode ++ ": " ++ resp.Status) (Itoa resp.StatusCode)
        ∧ Contains (name ++ Itoa resp.StatusCode ++ ": " ++ resp.Status) resp.Status) := by
  refine ⟨?_, ?_, ?_, ?_⟩
  · intro mail pw b hm hd
    rw [getRefreshToken_run lib tr c mail pw sys b hm]
    dsimp only
    rw [hd]
    dsimp only
    rw [if_pos hs]
    exact ⟨rfl, rfl⟩
  · intro t hd
    rw [getIDToken_run lib tr c t sys]
    dsimp only
    rw [hd]
    dsimp only
    rw [if_pos hs]
    exact ⟨rfl, rfl⟩
  · intro param hd
    rw [TradingCalendar_run lib tr c param sys]
    dsimp only
    rw [hd]
    dsimp only
    rw [if_pos hs]
    exact ⟨rfl, rfl⟩
  · intro name
    constructor
    · exact ⟨name.data, (": " ++ resp.Status).data, by simp [String.data_append]⟩
    · exact ⟨(name ++ Itoa resp.StatusCode ++ ": ").data, [], by simp [String.data_append]⟩

/-- C4, at a concrete input: the answer 401 to each of the three requests. -/
theorem non200_is_error_witness :
    (401 : Int) ≠ 200
    ∧ (getRefreshToken sampleLib scripted ⟨"id"⟩ "user@example.com" "secret"
        (freshSys [unauthorized])).1
      = ("", some ("getRefreshToken got non 200 HTTP status code "
          ++ Itoa 401 ++ ": " ++ "401 Unauthorized"))
    ∧ (getIDToken sampleLib scripted ⟨"id"⟩ "rt" (freshSys [unauthorized])).1
      = ("", some ("getIDToken got non 200 HTTP status code "
          ++ Itoa 401 ++ ": " ++ "401 Unauthorized"))
    ∧ (TradingCalendar sampleLib scripted ⟨"id"⟩ ⟨none, none, none⟩
        (freshSys [unauthorized])).1
      = (none, some ("TradingCalendar got non 200 HTTP status code "
          ++ Itoa 401 ++ ": " ++ "401 Unauthorized")) :=
  have key := non200_is_error sampleLib scripted ⟨"id"⟩ (freshSys [unauthorized])
    { StatusCode := 401, Status := "401 Unauthorized", Body := .ok "" } (by decide)
  ⟨by decide, (key.1 "user@example.com" "secret" _ rfl rfl).1, (key.2.1 "rt" rfl).1,
    (key.2.2.1 ⟨none, none, none⟩ rfl).1⟩

/-! ## The request of `TradingCalendar`: C6, C7, C8 -/

/-- C6 (counterexample): From = 2024-01-01, To = 2024-01-07 and the filter
BusinessDay. The query string of the request is
`from=2024-01-01&holidaydivision=1&to=2024-01-07`: `holidaydivision` stands
between `from` and `to`, and the text `from=2024-01-01&to=2024-01-07` is not
in it. -/
theorem range_split_by_filter :
    (TradingCalendar sampleLib scripted ⟨"id"⟩
        ⟨some BusinessDay, some ⟨2024, 1, 1⟩, some ⟨2024, 1, 7⟩⟩
        (freshSys [ok200 "\x7b\"trading_calendar\":[]\x7d"])).2.sent
      = [{ Method := "GET",
           URL := "https://api.jquants.com/v1/markets/trading_calendar?from=2024-01-01&holidaydivision=1&to=2024-01-07",
           Header := [("Authorization", "Bearer id")], Body := none }]
    ∧ queryOf "https://api.jquants.com/v1/markets/trading_calendar?from=2024-01-01&holidaydivision=1&to=2024-01-07"
      = "from=2024-01-01&holidaydivision=1&to=2024-01-07"
    ∧ ¬ Contains "from=2024-01-01&holidaydivision=1&to=2024-01-07"
        "from=2024-01-01&to=2024-01-07" := by
  refine ⟨by rfl, by rfl, by decide⟩

/-- C6 (amended): with both From and To set, `TradingCalendar` sends one GET
request whose query string is `from=<From>&to=<To>` when the filter is unset
and `from=<From>&holidaydivision=<code>&to=<To>` when it is set, the dates
written as YYYY-MM-DD by `Format`; the request has exactly one `from` and one
`to` parameter with these values, and the contiguous text
`from=<From>&to=<To>` is in the query string when the filter is unset. -/
theorem range_in_query {σ : Type} (lib : Lib) (tr : Transport σ) (c : clientImpl)
    (hd : Option HolidayDivision) (f t : Time) (sys : Sys σ) :
    ∃ req : Request,
      (TradingCalendar lib tr c ⟨hd, some f, some t⟩ sys).2.sent = sys.sent ++ [req]
      ∧ req.Method = "GET"
      ∧ queryOf req.URL =
          (match hd with
            | none => "from=" ++ f.Format ++ "&to=" ++ t.Format
            | some d => "from=" ++ f.Format ++ "&holidaydivision=" ++ Itoa d
                ++ "&to=" ++ t.Format)
      ∧ paramsNamed "from" req.URL = [("from", f.Format)]
      ∧ paramsNamed "to" req.URL = [("to", t.Format)]
      ∧ (hd = none → Contains (queryOf req.URL) ("from=" ++ f.Format ++ "&to=" ++ t.Format)) := by
  refine ⟨calendarRequest c ⟨hd, some f, some t⟩, TradingCalendar_sent lib tr c _ sys, rfl,
    ?_, ?_, ?_, ?_⟩
  · rw [queryOf_calendar]
    cases hd <;> rfl
  · rw [paramsNamed_calendar]
    cases hd <;> simp [calendarPairs]
  · rw [paramsNamed_calendar]
    cases hd <;> simp [calendarPairs]
  · intro h
    subst h
    rw [queryOf_calendar]
    exact ⟨[], [], by simp [calendarQuery]⟩

/-- C7: when From or To is not set, the request `TradingCalendar` sends has
no `from` and no `to` parameter, and is the request sent when neither is set;
and whatever From and To are, its `holidaydivision` parameters are those of
the request sent with the same filter and neither From nor To. -/
theorem half_range_dropped {σ : Type} (lib : Lib) (tr : Transport σ) (c : clientImpl)
    (hd : Option HolidayDivision) (f t : Option Time) (sys : Sys σ)
    (h : f = none ∨ t = none) :
    ∃ req req0 : Request,
      (TradingCalendar lib tr c ⟨hd, f, t⟩ sys).2.sent = sys.sent ++ [req]
      ∧ (TradingCalendar lib tr c ⟨hd, none, none⟩ sys).2.sent = sys.sent ++ [req0]
      ∧ paramsNamed "from" req.URL = []
      ∧ paramsNamed "to" req.URL = []
      ∧ req = req0
      ∧ (∀ f2 t2 : Option Time, ∃ req2 : Request,
          (TradingCalendar lib tr c ⟨hd, f2, t2⟩ sys).2.sent = sys.sent ++ [req2]
          ∧ paramsNamed "holidaydivision" req2.URL = paramsNamed "holidaydivision" req0.URL) := by
  refine ⟨calendarRequest c ⟨hd, f, t⟩, calendarRequest c ⟨hd, none, none⟩,
    TradingCalendar_sent lib tr c _ sys, TradingCalendar_sent lib tr c _ sys, ?_, ?_, ?_, ?_⟩
  · rw [paramsNamed_calendar]
    cases hd <;> cases f <;> cases t <;>
      first | (simp at h; done) | simp [calendarPairs]
  · rw [paramsNamed_calendar]
    cases hd <;> cases f <;> cases t <;>
      first | (simp at h; done) | simp [calendarPairs]
  · cases hd <;> cases f <;> cases t <;> first | (simp at h; done) | rfl
  · intro f2 t2
    refine ⟨calendarRequest c ⟨hd, f2, t2⟩, TradingCalendar_sent lib tr c _ sys, ?_⟩
    rw [paramsNamed_calendar, paramsNamed_calendar]
    cases hd <;> cases f2 <;> cases t2 <;> simp [calendarPairs]

/-- C7, at a concrete input: only To is set, with the filter HalfDay. -/
theorem half_range_dropped_witness :
    ((none : Option Time) = none ∨ some (⟨2024, 1, 7⟩ : Time) = none)
    ∧ ∃ req req0 : Request,
      (TradingCalendar sampleLib scripted ⟨"id"⟩ ⟨some HalfDay, none, some ⟨2024, 1, 7⟩⟩
        (freshSys [unauthorized])).2.sent = (freshSys [unauthorized]).sent ++ [req]
      ∧ (TradingCalendar sampleLib scripted ⟨"id"⟩ ⟨some HalfDay, none, none⟩
        (freshSys [unauthorized])).2.sent = (freshSys [unauthorized]).sent ++ [req0]
      ∧ paramsNamed "from" req.URL = []
      ∧ paramsNamed "to" req.URL = []
      ∧ req = req0
      ∧ (∀ f2 t2 : Option Time, ∃ req2 : Request,
          (TradingCalendar sampleLib scripted ⟨"id"⟩ ⟨some HalfDay, f2, t2⟩
            (freshSys [unauthorized])).2.sent = (freshSys [unauthorized]).sent ++ [req2]
          ∧ paramsNamed "holidaydivision" req2.URL
              = paramsNamed "holidaydivision" req0.URL) :=
  ⟨Or.inl rfl, half_range_dropped sampleLib scripted ⟨"id"⟩ (some HalfDay) none
    (some ⟨2024, 1, 7⟩) (freshSys [unauthorized]) (Or.inl rfl)⟩

/-- C8: the request `TradingCalendar` sends has a `holidaydivision` parameter
exactly when the filter is set; it then has exactly one, whose value is the
decimal string of the code of the filter: `0` for Holiday, `1` for
BusinessDay, `2` for HalfDay, `3` for TradingHoliday. -/
theorem filter_in_query {σ : Type} (lib : Lib) (tr : Transport σ) (c : clientImpl)
    (param : TradingCalendarParam) (sys : Sys σ) :
    ∃ req : Request,
      (TradingCalendar lib tr c param sys).2.sent = sys.sent ++ [req]
      ∧ paramsNamed "holidaydivision" req.URL =
          (match param.HolidayDivision with
            | none => []
            | some d => [("holidaydivision", Itoa d)])
      ∧ (paramsNamed "holidaydivision" req.URL ≠ [] ↔ param.HolidayDivision ≠ none)
      ∧ Itoa Holiday = "0" ∧ Itoa BusinessDay = "1" ∧ Itoa HalfDay = "2"
      ∧ Itoa TradingHoliday = "3" := by
  have key : paramsNamed "holidaydivision" (calendarRequest c param).URL =
      (match param.HolidayDivision with
        | none => []
        | some d => [("holidaydivision", Itoa d)]) := by
    rw [paramsNamed_calendar]
    obtain ⟨hd, f, t⟩ := param
    cases hd <;> cases f <;> cases t <;> simp [calendarPairs]
  refine ⟨calendarRequest c param, TradingCalendar_sent lib tr c _ sys, key, ?_,
    by decide, by decide, by decide, by decide⟩
  rw [key]
  cases param.HolidayDivision <;> simp

/-! ## The answer of `TradingCalendar`: C9, C10 -/

/-- C9 (counterexample): a 200 response with one element, the valid date
2024-01-04 and the decimal integer string 9223372036854775808 (2^63, one
more than the largest `int`): `TradingCalendar` returns a nil slice and the
error of `strconv.Atoi`, not one entry and a nil error. -/
theorem big_division_rejected :
    IsDateString "2024-01-04" ⟨2024, 1, 4⟩
    ∧ IsIntegerString "9223372036854775808" 9223372036854775808
    ∧ sampleLib.unmarshalTradingCalendar
        "\x7b\"trading_calendar\":[\x7b\"date\":\"2024-01-04\",\"holidaydivision\":\"9223372036854775808\"\x7d]\x7d"
      = .ok ⟨[⟨"2024-01-04", "9223372036854775808"⟩]⟩
    ∧ (TradingCalendar sampleLib scripted ⟨"id"⟩ ⟨none, none, none⟩
        (freshSys [ok200
          "\x7b\"trading_calendar\":[\x7b\"date\":\"2024-01-04\",\"holidaydivision\":\"9223372036854775808\"\x7d]\x7d"])).1
      = (none, some "TradingCalendar strconv.Atoi failed 9223372036854775808: strconv.Atoi: parsing \"9223372036854775808\": value out of range") :=
  ⟨sample_date, sample_big, rfl, by rfl⟩

/-- C9 (amended): a 200 response whose body decodes to the elements `elems`,
each with a valid YYYY-MM-DD date and a decimal integer string whose value a
Go `int` holds (64 bits: from -2^63 to 2^63 - 1). `TradingCalendar` returns a
nil error and the entries `entries`: as many as the elements, in their order,
the i-th with the date and the integer the i-th element writes, whatever the
integer (no check against 0..3). For no element the result is the empty,
non-nil slice. -/
theorem TradingCalendar_entries {σ : Type} (lib : Lib) (tr : Transport σ) (c : clientImpl)
    (param : TradingCalendarParam) (sys : Sys σ) (resp : Response) (body : String)
    (elems : List tradingCalendarItem) (entries : List DateHolidayDivision)
    (hd : (tr.Do sys.net (calendarRequest c param)).1 = .ok resp)
    (hs : resp.StatusCode = 200) (hb : resp.Body = .ok body)
    (hu : lib.unmarshalTradingCalendar body = .ok ⟨elems⟩)
    (hp : List.Forall₂ ItemParses elems entries) :
    (TradingCalendar lib tr c param sys).1 = (some entries, none)
    ∧ entries.length = elems.length
    ∧ (elems = [] → (TradingCalendar lib tr c param sys).1 = (some [], none)) := by
  have h := TradingCalendar_decoded lib tr c param sys resp body ⟨elems⟩ hd hs hb hu
  rw [parseItems_ok lib elems entries [] hp, List.nil_append] at h
  refine ⟨h, hp.length_eq.symm, ?_⟩
  intro he
  subst he
  cases hp
  exact h

/-- C9 (amended), at the input of the specification: the body
`\x7b"trading_calendar":[\x7b"date":"2024-01-04","holidaydivision":"1"\x7d]\x7d`
gives exactly one entry, 2024-01-04 with BusinessDay. -/
theorem TradingCalendar_entries_witness :
    ((scripted.Do
        [ok200 "\x7b\"trading_calendar\":[\x7b\"date\":\"2024-01-04\",\"holidaydivision\":\"1\"\x7d]\x7d"]
        (calendarRequest ⟨"id"⟩ ⟨none, none, none⟩)).1
      = .ok { StatusCode := 200, Status := "200 OK",
              Body := .ok "\x7b\"trading_calendar\":[\x7b\"date\":\"2024-01-04\",\"holidaydivision\":\"1\"\x7d]\x7d" }
    ∧ (200 : Int) = 200
    ∧ sampleLib.unmarshalTradingCalendar
        "\x7b\"trading_calendar\":[\x7b\"date\":\"2024-01-04\",\"holidaydivision\":\"1\"\x7d]\x7d"
      = .ok ⟨[⟨"2024-01-04", "1"⟩]⟩
    ∧ List.Forall₂ ItemParses [⟨"2024-01-04", "1"⟩] [⟨⟨2024, 1, 4⟩, BusinessDay⟩])
    ∧ (TradingCalendar sampleLib scripted ⟨"id"⟩ ⟨none, none, none⟩
        (freshSys [ok200
          "\x7b\"trading_calendar\":[\x7b\"date\":\"2024-01-04\",\"holidaydivision\":\"1\"\x7d]\x7d"])).1
      = (some [⟨⟨2024, 1, 4⟩, BusinessDay⟩], none) :=
  have hp : List.Forall₂ ItemParses [⟨"2024-01-04", "1"⟩] [⟨⟨2024, 1, 4⟩, BusinessDay⟩] :=
    List.Forall₂.cons ⟨sample_date, sample_one, sample_range⟩ List.Forall₂.nil
  ⟨⟨rfl, rfl, rfl, hp⟩,
    (TradingCalendar_entries sampleLib scripted ⟨"id"⟩ ⟨none, none, none⟩
      (freshSys [ok200
        "\x7b\"trading_calendar\":[\x7b\"date\":\"2024-01-04\",\"holidaydivision\":\"1\"\x7d]\x7d"])
      { StatusCode := 200, Status := "200 OK",
        Body := .ok "\x7b\"trading_calendar\":[\x7b\"date\":\"2024-01-04\",\"holidaydivision\":\"1\"\x7d]\x7d" }
      _ [⟨"2024-01-04", "1"⟩] [⟨⟨2024, 1, 4⟩, BusinessDay⟩] rfl rfl rfl rfl hp).1⟩

/-- C10 (counterexample): a 200 response with two elements. The first has the
valid date 2024-01-04 and the integer string 9223372036854775808; the second
has the date `x`, which is not a valid date, so `x` is the first value that is
not a valid date or not an integer string. `TradingCalendar` fails on the
first element, and the text of its error does not contain `x`. -/
theorem error_names_overflowing_division :
    IsDateString "2024-01-04" ⟨2024, 1, 4⟩
    ∧ IsIntegerString "9223372036854775808" 9223372036854775808
    ∧ (¬ ∃ t, IsDateString "x" t)
    ∧ sampleLib.unmarshalTradingCalendar
        "\x7b\"trading_calendar\":[\x7b\"date\":\"2024-01-04\",\"holidaydivision\":\"9223372036854775808\"\x7d,\x7b\"date\":\"x\",\"holidaydivision\":\"1\"\x7d]\x7d"
      = .ok ⟨[⟨"2024-01-04", "9223372036854775808"⟩, ⟨"x", "1"⟩]⟩
    ∧ (TradingCalendar sampleLib scripted ⟨"id"⟩ ⟨none, none, none⟩
        (freshSys [ok200
          "\x7b\"trading_calendar\":[\x7b\"date\":\"2024-01-04\",\"holidaydivision\":\"9223372036854775808\"\x7d,\x7b\"date\":\"x\",\"holidaydivision\":\"1\"\x7d]\x7d"])).1
      = (none, some "TradingCalendar strconv.Atoi failed 9223372036854775808: strconv.Atoi: parsing \"9223372036854775808\": value out of range")
    ∧ ¬ Contains "TradingCalendar strconv.Atoi failed 9223372036854775808: strconv.Atoi: parsing \"9223372036854775808\": value out of range" "x" :=
  ⟨sample_date, sample_big, sample_not_date, rfl, by rfl, sample_message_without_x⟩

/-- C10 (amended): a 200 response whose body decodes to elements of which at
least one does not parse, that is, its date is not a valid YYYY-MM-DD date or
its division is not an integer string whose value a Go `int` holds. Then
`elems` is `pre ++ x :: post` with every element of `pre` parsing and `x`
the first that does not; `TradingCalendar` returns a nil slice and an error
whose text contains the date of `x` when that date is not valid, and the
division of `x` otherwise; and the loop gives the same result whatever
follows `x`. -/
theorem TradingCalendar_fails_fast {σ : Type} (lib : Lib) (tr : Transport σ) (c : clientImpl)
    (param : TradingCalendarParam) (sys : Sys σ) (resp : Response) (body : String)
    (elems : List tradingCalendarItem)
    (hd : (tr.Do sys.net (calendarRequest c param)).1 = .ok resp)
    (hs : resp.StatusCode = 200) (hb : resp.Body = .ok body)
    (hu : lib.unmarshalTradingCalendar body = .ok ⟨elems⟩)
    (hoff : ∃ x ∈ elems, ¬ ∃ e, ItemParses x e) :
    ∃ (pre : List tradingCalendarItem) (x : tradingCalendarItem)
      (post : List tradingCalendarItem) (es : List DateHolidayDivision) (msg : String),
      elems = pre ++ x :: post
      ∧ List.Forall₂ ItemParses pre es
      ∧ (¬ ∃ e, ItemParses x e)
      ∧ (TradingCalendar lib tr c param sys).1 = (none, some msg)
      ∧ ((¬ (∃ t, IsDateString x.Date t) ∧ Contains msg x.Date)
        ∨ ((∃ t, IsDateString x.Date t) ∧ Contains msg x.HolidayDivision))
      ∧ (∀ post2 : List tradingCalendarItem,
          parseItems lib [] (pre ++ x :: post2) = (none, some msg)) := by
  obtain ⟨pre, x, post, es, he, hpre, hx⟩ := first_offending elems hoff
  obtain ⟨msg, hmsg, hc⟩ := parseItems_offending lib x hx
  have h := TradingCalendar_decoded lib tr c param sys resp body ⟨elems⟩ hd hs hb hu
  refine ⟨pre, x, post, es, msg, he, hpre, hx, ?_, hc, ?_⟩
  · rw [h]
    dsimp only
    rw [he, parseItems_append lib pre es [] _ hpre, hmsg]
  · intro post2
    rw [parseItems_append lib pre es [] _ hpre, hmsg]

/-- C10 (amended), at a concrete input: the second of two elements has the
date `x`; the call fails and the text of the error contains `x`. -/
theorem TradingCalendar_fails_fast_witness :
    (∃ x ∈ ([⟨"2024-01-04", "1"⟩, ⟨"x", "1"⟩] : List tradingCalendarItem),
        ¬ ∃ e, ItemParses x e)
    ∧ ∃ (pre : List tradingCalendarItem) (x : tradingCalendarItem)
      (post : List tradingCalendarItem) (es : List DateHolidayDivision) (msg : String),
      ([⟨"2024-01-04", "1"⟩, ⟨"x", "1"⟩] : List tradingCalendarItem) = pre ++ x :: post
      ∧ List.Forall₂ ItemParses pre es
      ∧ (¬ ∃ e, ItemParses x e)
      ∧ (TradingCalendar sampleLib scripted ⟨"id"⟩ ⟨none, none, none⟩
          (freshSys [ok200
            "\x7b\"trading_calendar\":[\x7b\"date\":\"2024-01-04\",\"holidaydivision\":\"1\"\x7d,\x7b\"date\":\"x\",\"holidaydivision\":\"1\"\x7d]\x7d"])).1
          = (none, some msg)
      ∧ ((¬ (∃ t, IsDateString x.Date t) ∧ Contains msg x.Date)
        ∨ ((∃ t, IsDateString x.Date t) ∧ Contains msg x.HolidayDivision))
      ∧ (∀ post2 : List tradingCalendarItem,
          parseItems sampleLib [] (pre ++ x :: post2) = (none, some msg)) :=
  have hoff : ∃ x ∈ ([⟨"2024-01-04", "1"⟩, ⟨"x", "1"⟩] : List tradingCalendarItem),
      ¬ ∃ e, ItemParses x e :=
    ⟨⟨"x", "1"⟩, by simp, fun ⟨e, he⟩ => sample_not_date ⟨e.Date, he.1⟩⟩
  ⟨hoff, TradingCalendar_fails_fast sampleLib scripted ⟨"id"⟩ ⟨none, none, none⟩
    (freshSys [ok200
      "\x7b\"trading_calendar\":[\x7b\"date\":\"2024-01-04\",\"holidaydivision\":\"1\"\x7d,\x7b\"date\":\"x\",\"holidaydivision\":\"1\"\x7d]\x7d"])
    { StatusCode := 200, Status := "200 OK",
      Body := .ok "\x7b\"trading_calendar\":[\x7b\"date\":\"2024-01-04\",\"holidaydivision\":\"1\"\x7d,\x7b\"date\":\"x\",\"holidaydivision\":\"1\"\x7d]\x7d" }
    _ [⟨"2024-01-04", "1"⟩, ⟨"x", "1"⟩] rfl rfl rfl rfl hoff⟩

end JQuants
